import Mathlib

/-!
Verification development for the beakling marketplace backend
(`app/backend/apps/orders` and `app/backend/apps/catalog`).

The Django models and views are shallowly embedded: database tables become
lists of records, Django `Decimal` money becomes `Rat` (Python `Decimal`
arithmetic on the operations used here — addition, subtraction and
multiplication by the literal rates 0.05 and 0.08 — is exact, so `Rat` is a
faithful model), `timezone.now()` becomes an explicit `Nat` clock value
passed into each operation, and a `@transaction.atomic` block becomes an
`Except` result that either returns the whole updated state or an error
(rollback = the caller keeps the pre-call state).
-/

namespace Beakling

/-! ## Catalog data model (`apps/catalog/models.py`) -/

/-- `Product` (catalog/models.py): the fields used by the orders app. -/
structure Product where
  id : Nat
  sku : String
  title : String
  price : Rat
  sale_price : Option Rat
  inventory : Nat
  vendorId : Nat
  is_active : Bool
deriving DecidableEq, Repr

/-- `Product.current_price`: `self.sale_price if self.sale_price else self.price`.
Python truthiness: a `None` or zero `Decimal` sale price falls back to `price`. -/
def current_price (p : Product) : Rat :=
  match p.sale_price with
  | some s => if s ≠ 0 then s else p.price
  | none => p.price

/-- Look a product up by primary key, as the ORM does through a foreign key. -/
def findProduct (ps : List Product) (pid : Nat) : Option Product :=
  ps.find? (fun p => p.id == pid)

/-! ## Cart data model (`apps/orders/models.py`) -/

/-- `CartItem`: a cart line (product foreign key and quantity). -/
structure CartItem where
  productId : Nat
  quantity : Nat
deriving DecidableEq, Repr

/-- `CartItem.unit_price`: the referenced product's `current_price`.
A dangling foreign key cannot occur under referential integrity; it is
modelled as price 0 and excluded by hypothesis where it matters. -/
def cartItem_unit_price (ps : List Product) (ci : CartItem) : Rat :=
  match findProduct ps ci.productId with
  | some p => current_price p
  | none => 0

/-- `CartItem.total_price = unit_price * quantity`. -/
def cartItem_total_price (ps : List Product) (ci : CartItem) : Rat :=
  cartItem_unit_price ps ci * ci.quantity

/-- `Cart.subtotal`: fold of `item.total_price` over the cart's items,
starting from `Decimal('0.00')`. -/
def cart_subtotal (ps : List Product) (items : List CartItem) : Rat :=
  items.foldl (fun total ci => total + cartItem_total_price ps ci) 0

/-! ## Order data model (`apps/orders/models.py`) -/

/-- `Order`: the fields touched by checkout, cancellation and the status
update endpoint. Status is the raw string stored in the `status` column. -/
structure Order where
  id : Nat
  status : String
  subtotal : Rat
  tax_amount : Rat
  shipping_amount : Rat
  discount_amount : Rat
  total_amount : Rat
  paid_at : Option Nat
  shipped_at : Option Nat
  delivered_at : Option Nat
  tracking_number : String
  customer_notes : String
  internal_notes : String
deriving DecidableEq, Repr

/-- `OrderItem`: frozen product snapshot plus quantity and prices. -/
structure OrderItem where
  orderId : Nat
  productId : Nat
  product_sku : String
  product_title : String
  product_price : Rat
  quantity : Nat
  unit_price : Rat
  total_price : Rat
  vendorId : Nat
deriving DecidableEq, Repr

/-- `OrderItem.save` on a fresh row created by checkout: snapshot
sku/title/price/vendor from the product, `unit_price` is the cart item's
`unit_price` (the product's `current_price`), and
`total_price = unit_price * quantity`. -/
def mkOrderItem (orderId : Nat) (p : Product) (qty : Nat) : OrderItem :=
  { orderId := orderId
    productId := p.id
    product_sku := p.sku
    product_title := p.title
    product_price := p.price
    quantity := qty
    unit_price := current_price p
    total_price := current_price p * qty
    vendorId := p.vendorId }

/-- `ShippingMethod`: the fields checkout uses. -/
structure ShippingMethod where
  id : Nat
  price : Rat
  is_active : Bool
deriving DecidableEq, Repr

/-- `Address` (users app): the fields checkout validation uses. -/
structure Address where
  id : Nat
  userId : Nat
  type : String
deriving DecidableEq, Repr

/-- `VendorEarnings`: one revenue-share row per (vendor, order). -/
structure VendorEarnings where
  vendorId : Nat
  orderId : Nat
  gross_amount : Rat
  platform_fee : Rat
  net_amount : Rat
  status : String
deriving DecidableEq, Repr

/-- `VendorEarnings.objects.create(...)` composed with `VendorEarnings.save`:
the view passes no `net_amount`, so the save hook computes
`net_amount = gross_amount - platform_fee`; `status` takes its model
default `pending`. -/
def mkVendorEarnings (vendorId orderId : Nat) (gross fee : Rat) : VendorEarnings :=
  { vendorId := vendorId
    orderId := orderId
    gross_amount := gross
    platform_fee := fee
    net_amount := gross - fee
    status := "pending" }

/-! ## Database state -/

/-- The slice of database state the orders workflows read and write.
`cartItems` is the requesting user's cart (a missing cart row and an empty
cart are indistinguishable to checkout: both raise "Cart is empty."). -/
structure St where
  products : List Product
  cartItems : List CartItem
  orders : List Order
  orderItems : List OrderItem
  earnings : List VendorEarnings
deriving DecidableEq, Repr

/-- Point update of one product's inventory: increment by `q`
(`product.inventory += quantity; product.save(...)`). -/
def bumpInventory (ps : List Product) (pid : Nat) (q : Nat) : List Product :=
  ps.map (fun p => if p.id == pid then { p with inventory := p.inventory + q } else p)

/-- Point update of one product's inventory: decrement by `q`
(`product.inventory -= quantity; product.save(...)`). -/
def decInventory (ps : List Product) (pid : Nat) (q : Nat) : List Product :=
  ps.map (fun p => if p.id == pid then { p with inventory := p.inventory - q } else p)

/-- Inventory of product `pid`, if the product exists. -/
def inventoryOf (ps : List Product) (pid : Nat) : Option Nat :=
  (findProduct ps pid).map (fun p => p.inventory)

/-! ## Checkout (`OrderCreateSerializer.create` and `OrderCreateView.create`) -/

/-- The checkout error kinds surfaced by serializer validation and
`OrderCreateSerializer.create`. `productNotFound` models a dangling cart
foreign key, unreachable under referential integrity. -/
inductive CheckoutErr where
  | invalidShippingAddress
  | invalidBillingAddress
  | invalidShippingMethod
  | emptyCart
  | insufficientInventory (title : String)
  | productNotFound
deriving DecidableEq, Repr

/-- The per-line loop of `OrderCreateSerializer.create`: for each cart item,
re-check `product.inventory < quantity` (raising "Insufficient inventory for
{title}."), create the `OrderItem`, and decrement the product's inventory.
A raised error aborts the whole loop (the enclosing transaction rolls back). -/
def processItems (orderId : Nat) (ps : List Product) :
    List CartItem → Except CheckoutErr (List Product × List OrderItem)
  | [] => .ok (ps, [])
  | ci :: rest =>
    match findProduct ps ci.productId with
    | none => .error .productNotFound
    | some p =>
      if p.inventory < ci.quantity then
        .error (.insufficientInventory p.title)
      else
        match processItems orderId (decInventory ps p.id ci.quantity) rest with
        | .error e => .error e
        | .ok (ps', ois) => .ok (ps', mkOrderItem orderId p ci.quantity :: ois)

/-- The request body of `OrderCreateSerializer`. -/
structure CheckoutReq where
  shipping_address_id : Nat
  billing_address_id : Nat
  shipping_method_id : Nat
  payment_method : String
  customer_notes : String
deriving DecidableEq, Repr

/-- `OrderCreateSerializer`: field validation (`validate_shipping_address_id`,
`validate_billing_address_id`, `validate_shipping_method_id`) followed by the
`@transaction.atomic` `create`: fetch the cart (empty or missing ⇒ "Cart is
empty."), compute `subtotal`, `tax = subtotal * 0.08`, `shipping`,
`total = subtotal + tax + shipping`, create the PENDING order, run the
per-item loop, and clear the cart. The `Except` result models the atomic
transaction: on any error nothing persists. -/
def serializerCreate (userId : Nat) (req : CheckoutReq) (addrs : List Address)
    (methods : List ShippingMethod) (st : St) (orderId : Nat) :
    Except CheckoutErr St :=
  if ¬ addrs.any (fun a =>
      a.id == req.shipping_address_id && a.userId == userId && a.type == "shipping") then
    .error .invalidShippingAddress
  else if ¬ addrs.any (fun a =>
      a.id == req.billing_address_id && a.userId == userId && a.type == "billing") then
    .error .invalidBillingAddress
  else
    match methods.find? (fun m => m.id == req.shipping_method_id && m.is_active) with
    | none => .error .invalidShippingMethod
    | some m =>
      if st.cartItems.isEmpty then
        .error .emptyCart
      else
        let subtotal := cart_subtotal st.products st.cartItems
        let tax_amount := subtotal * (8 / 100)
        let shipping_amount := m.price
        let total_amount := subtotal + tax_amount + shipping_amount
        let order : Order :=
          { id := orderId
            status := "PENDING"
            subtotal := subtotal
            tax_amount := tax_amount
            shipping_amount := shipping_amount
            discount_amount := 0
            total_amount := total_amount
            paid_at := none
            shipped_at := none
            delivered_at := none
            tracking_number := ""
            customer_notes := req.customer_notes
            internal_notes := "" }
        match processItems orderId st.products st.cartItems with
        | .error e => .error e
        | .ok (ps', ois) =>
          .ok { st with
                products := ps'
                orders := st.orders ++ [order]
                orderItems := st.orderItems ++ ois
                cartItems := [] }

/-- One step of the `vendor_totals` dict accumulation in
`OrderCreateView.create`: insert the vendor with gross 0 if absent, then add
the item's `total_price` to the vendor's running gross. The dict is modelled
as an association list in insertion order. -/
def vtStep (acc : List (Nat × Rat)) (i : OrderItem) : List (Nat × Rat) :=
  if (acc.map Prod.fst).contains i.vendorId then
    acc.map (fun p => if p.1 == i.vendorId then (p.1, p.2 + i.total_price) else p)
  else
    acc ++ [(i.vendorId, i.total_price)]

/-- `vendor_totals` after the item loop of `OrderCreateView.create`. -/
def vendorTotals (items : List OrderItem) : List (Nat × Rat) :=
  items.foldl vtStep []

/-- The earnings loop of `OrderCreateView.create`: one
`VendorEarnings.objects.create` per accumulated vendor, with
`platform_fee = gross_amount * Decimal('0.05')`. -/
def createVendorEarnings (orderId : Nat) (items : List OrderItem) : List VendorEarnings :=
  (vendorTotals items).map (fun p => mkVendorEarnings p.1 orderId p.2 (p.2 * (5 / 100)))

/-- `OrderCreateView.create`: run the serializer (its own atomic
transaction), then — outside that transaction — create the vendor earnings
rows for the new order's items. -/
def checkout (userId : Nat) (req : CheckoutReq) (addrs : List Address)
    (methods : List ShippingMethod) (st : St) (orderId : Nat) :
    Except CheckoutErr St :=
  match serializerCreate userId req addrs methods st orderId with
  | .error e => .error e
  | .ok st2 =>
    let items := st2.orderItems.filter (fun i => i.orderId == orderId)
    .ok { st2 with earnings := st2.earnings ++ createVendorEarnings orderId items }

/-- The state committed if the process stops between the serializer's
transaction commit and the earnings loop of `OrderCreateView.create` (the
earnings loop runs outside the serializer's `@transaction.atomic` block, so
this intermediate state is durably visible). -/
def checkoutStoppedBeforeEarnings (userId : Nat) (req : CheckoutReq)
    (addrs : List Address) (methods : List ShippingMethod) (st : St)
    (orderId : Nat) : Except CheckoutErr St :=
  serializerCreate userId req addrs methods st orderId

/-! ## Order lookup and update helpers -/

/-- Look an order up by primary key. -/
def findOrder (os : List Order) (oid : Nat) : Option Order :=
  os.find? (fun o => o.id == oid)

/-- Replace the order with id `oid` by `o2` (`order.save()`). -/
def replaceOrder (os : List Order) (oid : Nat) (o2 : Order) : List Order :=
  os.map (fun o => if o.id == oid then o2 else o)

/-- The order items belonging to order `oid` (`order.items.all()`). -/
def itemsOfOrder (ois : List OrderItem) (oid : Nat) : List OrderItem :=
  ois.filter (fun i => i.orderId == oid)

/-! ## Cancellation (`Order.can_be_cancelled` and `Order.cancel`) -/

/-- `Order.can_be_cancelled`: `status in [Constants.PENDING, Constants.PAID]`. -/
def can_be_cancelled (o : Order) : Bool :=
  o.status == "PENDING" || o.status == "PAID"

/-- `Order.cancel(reason)`: raise unless cancellable; restore inventory for
every item of the order (`product.inventory += item.quantity`); set status to
CANCELLED and append the reason to `internal_notes`. The whole method is one
request-scoped unit: the raised `ValueError` leaves the state unchanged. -/
def cancelOrder (st : St) (oid : Nat) (reason : String) : Except String St :=
  match findOrder st.orders oid with
  | none => .error "Order not found."
  | some o =>
    if ¬ can_be_cancelled o then
      .error "Order cannot be cancelled in current status."
    else
      let items := itemsOfOrder st.orderItems oid
      let ps := items.foldl (fun ps i => bumpInventory ps i.productId i.quantity) st.products
      let o2 := { o with
                  status := "CANCELLED"
                  internal_notes := o.internal_notes ++ "\nCancelled: " ++ reason }
      .ok { st with products := ps, orders := replaceOrder st.orders oid o2 }

/-! ## Status update endpoint (`update_order_status`, orders/views.py) -/

/-- The responses of the `update_order_status` view. -/
inductive UpdResp where
  | notFound
  | missingStatus
  | invalidStatus
  | noChange (s : String)
  | updated (oldStatus newStatus : String)
deriving DecidableEq, Repr

/-- `Constants.ORDER_STATUS_CHOICES` keys, the valid `status` values. -/
def validStatuses : List String :=
  ["PENDING", "PAID", "SHIPPED", "DELIVERED", "CANCELLED"]

/-- `update_order_status(request, order_id)`: 404 if the order is missing; 400
if `status` is absent/empty or not one of the choices; a 200 warning if the
order already has that status; otherwise set the status and, per target
status, stamp `paid_at` / `shipped_at` / `delivered_at` with `now`, store a
non-empty tracking number on SHIPPED, backfill `shipped_at` on DELIVERED,
and on PAID set every `VendorEarnings` row of the order to `available`.
No other transition check is performed. -/
def update_order_status (st : St) (oid : Nat) (reqStatus : Option String)
    (tracking : String) (now : Nat) : UpdResp × St :=
  match findOrder st.orders oid with
  | none => (.notFound, st)
  | some o =>
    match reqStatus with
    | none => (.missingStatus, st)
    | some ns =>
      if ns = "" then (.missingStatus, st)
      else if ¬ validStatuses.contains ns then (.invalidStatus, st)
      else if ns = o.status then (.noChange ns, st)
      else
        let old := o.status
        let o1 := { o with status := ns }
        let upd : Order × List VendorEarnings :=
          if ns = "PAID" ∧ old ≠ "PAID" then
            ({ o1 with paid_at := some now },
             st.earnings.map (fun e =>
               if e.orderId == oid then { e with status := "available" } else e))
          else if ns = "SHIPPED" ∧ old ≠ "SHIPPED" then
            ({ o1 with
               shipped_at := some now
               tracking_number := if tracking ≠ "" then tracking else o1.tracking_number },
             st.earnings)
          else if ns = "DELIVERED" ∧ old ≠ "DELIVERED" then
            let o2 := { o1 with delivered_at := some now }
            ({ o2 with
               shipped_at := if o2.shipped_at = none then some now else o2.shipped_at },
             st.earnings)
          else (o1, st.earnings)
        (.updated old ns,
         { st with orders := replaceOrder st.orders oid upd.1, earnings := upd.2 })

/-! ## Cart add and merge (`CartItemListView.perform_create`, `merge_cart`) -/

/-- The validation errors of `CartItemSerializer`. -/
inductive AddItemErr where
  | productNotFound
  | outOfStock
  | quantityTooSmall
  | insufficientStock (available : Nat)
deriving DecidableEq, Repr

/-- `CartItemSerializer` field validation: `validate_product_id` requires an
active product with inventory ≥ 1; `validate_quantity` requires quantity ≥ 1
and ≤ the product's inventory. -/
def validateCartItem (ps : List Product) (pid qty : Nat) : Except AddItemErr Unit :=
  match ps.find? (fun p => p.id == pid && p.is_active) with
  | none => .error .productNotFound
  | some p =>
    if p.inventory < 1 then .error .outOfStock
    else if qty < 1 then .error .quantityTooSmall
    else if qty > p.inventory then .error (.insufficientStock p.inventory)
    else .ok ()

/-- `CartItemListView`: serializer validation then `perform_create`. If the
item already exists, add the quantities and clamp the sum to the product's
inventory; otherwise create a new cart item with the requested quantity. -/
def addItem (ps : List Product) (cart : List CartItem) (pid qty : Nat) :
    Except AddItemErr (List CartItem) :=
  match validateCartItem ps pid qty with
  | .error e => .error e
  | .ok _ =>
    match cart.find? (fun ci => ci.productId == pid) with
    | some ci =>
      let q := ci.quantity + qty
      let inv := ((findProduct ps pid).map (fun p => p.inventory)).getD 0
      let q := if q > inv then inv else q
      .ok (cart.map (fun c => if c.productId == pid then { c with quantity := q } else c))
    | none => .ok (cart ++ [{ productId := pid, quantity := qty }])

/-- The item loop of `merge_cart`: for each source item,
`CartItem.objects.get_or_create` on the target — a fresh item keeps the
source quantity as-is, an existing item gets the quantities added and the
sum clamped to the product's inventory. -/
def mergeItems (ps : List Product) (sourceItems targetItems : List CartItem) :
    List CartItem :=
  sourceItems.foldl
    (fun tgt si =>
      match tgt.find? (fun ci => ci.productId == si.productId) with
      | none => tgt ++ [{ productId := si.productId, quantity := si.quantity }]
      | some ci =>
        let q := ci.quantity + si.quantity
        let inv := ((findProduct ps si.productId).map (fun p => p.inventory)).getD 0
        let q := if q > inv then inv else q
        tgt.map (fun c =>
          if c.productId == si.productId then { c with quantity := q } else c))
    targetItems

/-- `merge_cart` over a store of carts keyed by cart id: if the source cart
exists, merge its items into the target cart (`get_or_create` creates an
empty target if absent) and delete the source cart; a missing source cart is
reported and nothing changes. -/
def merge_cart (ps : List Product) (carts : List (Nat × List CartItem))
    (sourceId targetId : Nat) : List (Nat × List CartItem) :=
  match carts.find? (fun c => c.1 == sourceId) with
  | none => carts
  | some sc =>
    let tgtItems := ((carts.find? (fun c => c.1 == targetId)).map Prod.snd).getD []
    let merged := mergeItems ps sc.2 tgtItems
    let carts2 :=
      if carts.any (fun c => c.1 == targetId) then
        carts.map (fun c => if c.1 == targetId then (c.1, merged) else c)
      else carts ++ [(targetId, merged)]
    carts2.filter (fun c => ¬ c.1 == sourceId)

/-! ## OrderItem delete signal (`restore_inventory_on_delete`, signals.py) -/

/-- Deleting an order item (identified by its order and product, unique per
order for checkout-created items): the `pre_delete` receiver restores the
product's inventory when the owning order's status is PENDING or CANCELLED,
then the row is removed. A missing row is a no-op delete. -/
def deleteOrderItem (st : St) (oid pid : Nat) : St :=
  match st.orderItems.find? (fun i => i.orderId == oid && i.productId == pid) with
  | none => st
  | some it =>
    let ps :=
      match findOrder st.orders oid with
      | some o =>
        if o.status = "PENDING" ∨ o.status = "CANCELLED" then
          bumpInventory st.products it.productId it.quantity
        else st.products
      | none => st.products
    { st with
      products := ps
      orderItems :=
        st.orderItems.filter (fun i => ¬ (i.orderId == oid && i.productId == pid)) }

/-! ## Spec-side definitions (for refinement comparison only)

These two definitions follow the wording of the specification, not the
source; they exist to be compared against `current_price` / `cart_subtotal`. -/

/-- The effective price as the spec words it: "using sale price when present
and lower" than the regular price. -/
def specEffectivePrice (p : Product) : Rat :=
  match p.sale_price with
  | some s => if s < p.price then s else p.price
  | none => p.price

/-- The cart subtotal as the spec words it: sum over items of quantity times
the spec's effective price. -/
def specSubtotal (ps : List Product) (items : List CartItem) : Rat :=
  (items.map (fun ci =>
    (match findProduct ps ci.productId with
     | some p => specEffectivePrice p
     | none => 0) * (ci.quantity : Rat))).sum

/-! ## Helper lemmas: lookups through point updates -/

/-- Searching by key through a `map` whose function preserves the key finds
the image of the original hit. -/
theorem find?_map_of_key {α : Type} (l : List α) (f : α → α) (key : α → Nat)
    (hf : ∀ a, key (f a) = key a) (x : Nat) :
    (l.map f).find? (fun a => key a == x) = (l.find? (fun a => key a == x)).map f := by
  induction l with
  | nil => rfl
  | cons a l ih =>
    by_cases h : key a == x
    · have h' : key (f a) == x := by rw [hf]; exact h
      simp [List.find?_cons, h, h']
    · have h' : ¬ (key (f a) == x) = true := by rw [hf]; exact h
      simp only [List.map_cons, List.find?_cons]
      rw [Bool.eq_false_iff.mpr h', Bool.eq_false_iff.mpr h]
      exact ih

theorem findProduct_map (ps : List Product) (f : Product → Product)
    (hf : ∀ p, (f p).id = p.id) (x : Nat) :
    findProduct (ps.map f) x = (findProduct ps x).map f :=
  find?_map_of_key ps f Product.id hf x

theorem inventoryOf_bump (ps : List Product) (pid q x : Nat) :
    inventoryOf (bumpInventory ps pid q) x =
      (inventoryOf ps x).map (fun v => if x = pid then v + q else v) := by
  unfold inventoryOf bumpInventory
  rw [findProduct_map ps _ (fun p => by by_cases h : p.id == pid <;> simp [h]) x]
  cases hfind : findProduct ps x with
  | none => rfl
  | some p =>
    have hpx : p.id = x := by
      have h1 := hfind
      unfold findProduct at h1
      simpa using List.find?_some h1
    by_cases hx : x = pid
    · simp [hpx, hx]
    · simp [hpx, hx]

theorem inventoryOf_dec (ps : List Product) (pid q x : Nat) :
    inventoryOf (decInventory ps pid q) x =
      (inventoryOf ps x).map (fun v => if x = pid then v - q else v) := by
  unfold inventoryOf decInventory
  rw [findProduct_map ps _ (fun p => by by_cases h : p.id == pid <;> simp [h]) x]
  cases hfind : findProduct ps x with
  | none => rfl
  | some p =>
    have hpx : p.id = x := by
      have h1 := hfind
      unfold findProduct at h1
      simpa using List.find?_some h1
    by_cases hx : x = pid
    · simp [hpx, hx]
    · simp [hpx, hx]

theorem findProduct_dec_ne (ps : List Product) (pid q x : Nat) (h : x ≠ pid) :
    findProduct (decInventory ps pid q) x = findProduct ps x := by
  unfold decInventory
  rw [findProduct_map ps _ (fun p => by by_cases hh : p.id == pid <;> simp [hh]) x]
  cases hfind : findProduct ps x with
  | none => rfl
  | some p =>
    have hpx : p.id = x := by
      have h1 := hfind
      unfold findProduct at h1
      simpa using List.find?_some h1
    simp [hpx, h]

/-- Total quantity of order items for product `pid`. -/
def sumQty (l : List OrderItem) (pid : Nat) : Nat :=
  ((l.filter (fun i => i.productId == pid)).map (fun i => i.quantity)).sum

theorem sumQty_nil (pid : Nat) : sumQty [] pid = 0 := rfl

theorem sumQty_cons (i : OrderItem) (l : List OrderItem) (pid : Nat) :
    sumQty (i :: l) pid = (if i.productId = pid then i.quantity else 0) + sumQty l pid := by
  unfold sumQty
  rw [List.filter_cons]
  by_cases h : i.productId = pid
  · simp [h]
  · simp [h]

/-- Folding inventory restoration over a list of order items adds the total
per-product quantity. -/
theorem inventoryOf_foldl_bump (l : List OrderItem) (ps : List Product) (x : Nat) :
    inventoryOf (l.foldl (fun a i => bumpInventory a i.productId i.quantity) ps) x =
      (inventoryOf ps x).map (fun v => v + sumQty l x) := by
  induction l generalizing ps with
  | nil =>
    simp [sumQty_nil]
  | cons i l ih =>
    rw [List.foldl_cons, ih, inventoryOf_bump, sumQty_cons]
    cases inventoryOf ps x with
    | none => rfl
    | some v =>
      by_cases h : x = i.productId
      · simp only [h, if_pos rfl]
        simp
        omega
      · have h' : ¬ i.productId = x := fun hh => h hh.symm
        simp [h, h']

/-! ## Helper lemmas: the checkout item loop -/

theorem findProduct_id (ps : List Product) (pid : Nat) (p : Product)
    (h : findProduct ps pid = some p) : p.id = pid := by
  unfold findProduct at h
  simpa using List.find?_some h

/-- Success of the item loop: the inventory it leaves, plus the quantity the
created order items carry, gives back the original inventory — on every
product, whether in the cart or not. -/
theorem processItems_ok_roundtrip (oid : Nat) (cart : List CartItem)
    (ps ps' : List Product) (ois : List OrderItem)
    (h : processItems oid ps cart = .ok (ps', ois)) (x : Nat) :
    (inventoryOf ps' x).map (fun v => v + sumQty ois x) = inventoryOf ps x := by
  induction cart generalizing ps ps' ois with
  | nil =>
    unfold processItems at h
    injection h with h
    injection h with h1 h2
    subst h1; subst h2
    simp [sumQty_nil]
  | cons ci rest ih =>
    unfold processItems at h
    cases hfp : findProduct ps ci.productId with
    | none => rw [hfp] at h; exact absurd h (by simp)
    | some p =>
      rw [hfp] at h
      dsimp only at h
      by_cases hlt : p.inventory < ci.quantity
      · rw [if_pos hlt] at h; exact absurd h (by simp)
      · rw [if_neg hlt] at h
        cases hrec : processItems oid (decInventory ps p.id ci.quantity) rest with
        | error e => rw [hrec] at h; exact absurd h (by simp)
        | ok res =>
          obtain ⟨ps1, ois1⟩ := res
          rw [hrec] at h
          injection h with h
          injection h with h1 h2
          subst h1; subst h2
          have hid : p.id = ci.productId := findProduct_id ps ci.productId p hfp
          have ihx := ih _ _ _ hrec
          rw [sumQty_cons]
          by_cases hx : x = p.id
          · have hfpx : findProduct ps x = some p := by rw [hx]; rw [← hid] at hfp; exact hfp
            have hdec : inventoryOf (decInventory ps p.id ci.quantity) x
                = some (p.inventory - ci.quantity) := by
              rw [inventoryOf_dec]
              unfold inventoryOf
              rw [hfpx]
              simp [hx]
            rw [hdec] at ihx
            cases hinv : inventoryOf ps1 x with
            | none => rw [hinv] at ihx; exact absurd ihx (by simp)
            | some w =>
              rw [hinv] at ihx
              have hw : w + sumQty ois1 x = p.inventory - ci.quantity := by
                simpa using ihx
              have hinvps : inventoryOf ps x = some p.inventory := by
                unfold inventoryOf
                rw [hfpx]
                rfl
              rw [hinvps]
              simp only [Option.map_some', mkOrderItem]
              have hpe : p.id = x := hx.symm
              rw [if_pos hpe]
              have hle : ci.quantity ≤ p.inventory := Nat.le_of_not_lt hlt
              congr 1
              omega
          · have hdec : inventoryOf (decInventory ps p.id ci.quantity) x
                = inventoryOf ps x := by
              rw [inventoryOf_dec]
              cases inventoryOf ps x with
              | none => rfl
              | some v => simp [hx]
            rw [hdec] at ihx
            have hne : ¬ (mkOrderItem oid p ci.quantity).productId = x := by
              simp [mkOrderItem]
              exact fun hh => hx hh.symm
            rw [if_neg hne, Nat.zero_add]
            exact ihx

/-- Success of the item loop: one order item per cart line, in order, with
the cart line's product and quantity, owned by the new order. -/
theorem processItems_ok_items (oid : Nat) (cart : List CartItem)
    (ps ps' : List Product) (ois : List OrderItem)
    (h : processItems oid ps cart = .ok (ps', ois)) :
    ois.map (fun i => (i.orderId, i.productId, i.quantity))
      = cart.map (fun c => (oid, c.productId, c.quantity)) := by
  induction cart generalizing ps ps' ois with
  | nil =>
    unfold processItems at h
    injection h with h
    injection h with h1 h2
    subst h1; subst h2
    rfl
  | cons ci rest ih =>
    unfold processItems at h
    cases hfp : findProduct ps ci.productId with
    | none => rw [hfp] at h; exact absurd h (by simp)
    | some p =>
      rw [hfp] at h
      dsimp only at h
      by_cases hlt : p.inventory < ci.quantity
      · rw [if_pos hlt] at h; exact absurd h (by simp)
      · rw [if_neg hlt] at h
        cases hrec : processItems oid (decInventory ps p.id ci.quantity) rest with
        | error e => rw [hrec] at h; exact absurd h (by simp)
        | ok res =>
          obtain ⟨ps1, ois1⟩ := res
          rw [hrec] at h
          injection h with h
          injection h with h1 h2
          subst h1; subst h2
          have hid : p.id = ci.productId := findProduct_id ps ci.productId p hfp
          simp only [List.map_cons, mkOrderItem, hid]
          rw [ih _ _ _ hrec]

/-- The item loop succeeds when every cart line (for pairwise-distinct
products) finds its product with inventory at least the requested quantity. -/
theorem processItems_succeeds (oid : Nat) (cart : List CartItem) (ps : List Product)
    (hnd : (cart.map (fun c => c.productId)).Nodup)
    (hok : ∀ ci ∈ cart, ∃ p, findProduct ps ci.productId = some p ∧
      ci.quantity ≤ p.inventory) :
    ∃ ps' ois, processItems oid ps cart = .ok (ps', ois) := by
  induction cart generalizing ps with
  | nil => exact ⟨ps, [], rfl⟩
  | cons ci rest ih =>
    obtain ⟨p, hfp, hle⟩ := hok ci (by simp)
    have hid : p.id = ci.productId := findProduct_id ps ci.productId p hfp
    have h0 := hnd
    rw [List.map_cons] at h0
    have hnd' : (rest.map (fun c => c.productId)).Nodup := (List.nodup_cons.mp h0).2
    have hmem : ci.productId ∉ rest.map (fun c => c.productId) := (List.nodup_cons.mp h0).1
    have hok' : ∀ cj ∈ rest, ∃ p', findProduct (decInventory ps p.id ci.quantity)
        cj.productId = some p' ∧ cj.quantity ≤ p'.inventory := by
      intro cj hcj
      obtain ⟨p', hfp', hle'⟩ := hok cj (by simp [hcj])
      have hne : cj.productId ≠ p.id := by
        rw [hid]
        intro hh
        exact hmem (by rw [← hh]; exact List.mem_map_of_mem _ hcj)
      exact ⟨p', by rw [findProduct_dec_ne ps p.id ci.quantity cj.productId hne]; exact hfp', hle'⟩
    obtain ⟨ps', ois, hrec⟩ := ih (decInventory ps p.id ci.quantity) hnd' hok'
    refine ⟨ps', mkOrderItem oid p ci.quantity :: ois, ?_⟩
    unfold processItems
    rw [hfp]
    dsimp only
    rw [if_neg (Nat.not_lt.mpr hle), hrec]

/-- The item loop fails with the first under-stocked line's product title
when every earlier line is sufficiently stocked. -/
theorem processItems_first_insufficient (oid : Nat) (pre post : List CartItem)
    (ci : CartItem) (ps : List Product) (pc : Product)
    (hnd : ((pre ++ [ci]).map (fun c => c.productId)).Nodup)
    (hpre : ∀ cj ∈ pre, ∃ p, findProduct ps cj.productId = some p ∧
      cj.quantity ≤ p.inventory)
    (hfc : findProduct ps ci.productId = some pc)
    (hlt : pc.inventory < ci.quantity) :
    processItems oid ps (pre ++ ci :: post) = .error (.insufficientInventory pc.title) := by
  induction pre generalizing ps with
  | nil =>
    simp only [List.nil_append]
    unfold processItems
    rw [hfc]
    dsimp only
    rw [if_pos hlt]
  | cons cj pre' ih =>
    obtain ⟨p, hfp, hle⟩ := hpre cj (by simp)
    have hid : p.id = cj.productId := findProduct_id ps cj.productId p hfp
    have h0 := hnd
    rw [List.cons_append, List.map_cons] at h0
    have hnd0 : cj.productId ∉ ((pre' ++ [ci]).map (fun c => c.productId)) :=
      (List.nodup_cons.mp h0).1
    have hnd' : ((pre' ++ [ci]).map (fun c => c.productId)).Nodup :=
      (List.nodup_cons.mp h0).2
    have hpre' : ∀ ck ∈ pre', ∃ p', findProduct (decInventory ps p.id cj.quantity)
        ck.productId = some p' ∧ ck.quantity ≤ p'.inventory := by
      intro ck hck
      obtain ⟨p', hfp', hle'⟩ := hpre ck (by simp [hck])
      have hne : ck.productId ≠ p.id := by
        rw [hid]
        intro hh
        have hmm : ck.productId ∈ (pre' ++ [ci]).map (fun c => c.productId) :=
          List.mem_map_of_mem _ (List.mem_append_left _ hck)
        rw [hh] at hmm
        exact hnd0 hmm
      exact ⟨p', by rw [findProduct_dec_ne ps p.id cj.quantity ck.productId hne]; exact hfp', hle'⟩
    have hfc' : findProduct (decInventory ps p.id cj.quantity) ci.productId = some pc := by
      have hne : ci.productId ≠ p.id := by
        rw [hid]
        intro hh
        have hmm : ci.productId ∈ (pre' ++ [ci]).map (fun c => c.productId) :=
          List.mem_map_of_mem _ (List.mem_append_right _ (by simp))
        rw [hh] at hmm
        exact hnd0 hmm
      rw [findProduct_dec_ne ps p.id cj.quantity ci.productId hne]
      exact hfc
    have := ih (decInventory ps p.id cj.quantity) hnd' hpre' hfc'
    simp only [List.cons_append]
    unfold processItems
    rw [hfp]
    dsimp only
    rw [if_neg (Nat.not_lt.mpr hle), this]

/-! ## Helper lemmas: the vendor totals accumulation -/

/-- Sum of `total_price` over the items of vendor `v`. -/
def vendorSum (items : List OrderItem) (v : Nat) : Rat :=
  ((items.filter (fun i => i.vendorId == v)).map (fun i => i.total_price)).sum

/-- The vendors of `items` in first-occurrence order, skipping those already
in `ks`. -/
def newVendors : List OrderItem → List Nat → List Nat
  | [], _ => []
  | i :: rest, ks =>
    if ks.contains i.vendorId then newVendors rest ks
    else i.vendorId :: newVendors rest (i.vendorId :: ks)

theorem newVendors_nil (ks : List Nat) : newVendors [] ks = [] := rfl

theorem newVendors_cons (i : OrderItem) (rest : List OrderItem) (ks : List Nat) :
    newVendors (i :: rest) ks =
      if ks.contains i.vendorId then newVendors rest ks
      else i.vendorId :: newVendors rest (i.vendorId :: ks) := rfl

theorem vendorSum_nil (v : Nat) : vendorSum [] v = 0 := rfl

theorem vendorSum_cons (i : OrderItem) (rest : List OrderItem) (v : Nat) :
    vendorSum (i :: rest) v =
      (if i.vendorId = v then i.total_price else 0) + vendorSum rest v := by
  unfold vendorSum
  rw [List.filter_cons]
  by_cases h : i.vendorId = v
  · simp [h]
  · simp [h]

theorem mem_newVendors (items : List OrderItem) (ks : List Nat) (v : Nat) :
    v ∈ newVendors items ks ↔ v ∉ ks ∧ ∃ i ∈ items, i.vendorId = v := by
  induction items generalizing ks with
  | nil => simp [newVendors_nil]
  | cons i rest ih =>
    rw [newVendors_cons]
    by_cases h : ks.contains i.vendorId
    · have hiv : i.vendorId ∈ ks := List.elem_iff.mp h
      rw [if_pos h, ih]
      constructor
      · rintro ⟨h1, j, hj, hv⟩
        exact ⟨h1, j, by simp [hj], hv⟩
      · rintro ⟨h1, j, hj, hv⟩
        rcases List.mem_cons.mp hj with rfl | hj'
        · exact absurd (hv ▸ hiv) h1
        · exact ⟨h1, j, hj', hv⟩
    · have hiv : i.vendorId ∉ ks := fun hm => h (List.elem_iff.mpr hm)
      rw [if_neg h]
      constructor
      · intro hmem
        rcases List.mem_cons.mp hmem with rfl | h2
        · exact ⟨hiv, i, by simp, rfl⟩
        · obtain ⟨h1, j, hj, hv⟩ := (ih _).mp h2
          have h1' : v ∉ ks := fun hk => h1 (by simp [hk])
          exact ⟨h1', j, by simp [hj], hv⟩
      · rintro ⟨h1, j, hj, hv⟩
        by_cases hvv : v = i.vendorId
        · rw [hvv]
          exact List.mem_cons_self _ _
        · rcases List.mem_cons.mp hj with rfl | hj'
          · exact absurd hv (fun hh => hvv hh.symm)
          · refine List.mem_cons_of_mem _ ((ih _).mpr ⟨?_, j, hj', hv⟩)
            intro hk
            rcases List.mem_cons.mp hk with h' | h'
            · exact hvv h'
            · exact h1 h'

theorem newVendors_nodup (items : List OrderItem) (ks : List Nat) :
    (newVendors items ks).Nodup := by
  induction items generalizing ks with
  | nil => simp [newVendors_nil]
  | cons i rest ih =>
    rw [newVendors_cons]
    by_cases h : ks.contains i.vendorId
    · rw [if_pos h]
      exact ih _
    · rw [if_neg h]
      refine List.nodup_cons.mpr ⟨?_, ih _⟩
      intro hmem
      obtain ⟨h1, -⟩ := (mem_newVendors rest (i.vendorId :: ks) i.vendorId).mp hmem
      exact h1 (by simp)

theorem newVendors_congr (items : List OrderItem) (ks ks' : List Nat)
    (h : ∀ v, v ∈ ks ↔ v ∈ ks') : newVendors items ks = newVendors items ks' := by
  induction items generalizing ks ks' with
  | nil => rfl
  | cons i rest ih =>
    rw [newVendors_cons, newVendors_cons]
    by_cases hc : ks.contains i.vendorId
    · have hc' : ks'.contains i.vendorId :=
        List.elem_iff.mpr ((h _).mp (List.elem_iff.mp hc))
      rw [if_pos hc, if_pos hc']
      exact ih ks ks' h
    · have hc' : ¬ ks'.contains i.vendorId = true := by
        intro hh
        exact hc (List.elem_iff.mpr ((h _).mpr (List.elem_iff.mp hh)))
      rw [if_neg hc, if_neg hc']
      rw [ih (i.vendorId :: ks) (i.vendorId :: ks') (fun v => by simp [h v])]

/-- Closed form of the `vendor_totals` accumulation from any accumulator with
pairwise-distinct keys: existing entries gain their vendor's item total, new
vendors are appended in first-occurrence order with their full totals. -/
theorem foldl_vtStep_eq (items : List OrderItem) (acc : List (Nat × Rat))
    (hnd : (acc.map Prod.fst).Nodup) :
    items.foldl vtStep acc =
      acc.map (fun p => (p.1, p.2 + vendorSum items p.1)) ++
      (newVendors items (acc.map Prod.fst)).map (fun v => (v, vendorSum items v)) := by
  induction items generalizing acc with
  | nil =>
    simp [newVendors_nil, vendorSum_nil]
  | cons i rest ih =>
    rw [List.foldl_cons]
    by_cases h : (acc.map Prod.fst).contains i.vendorId
    · have hstep : vtStep acc i =
          acc.map (fun p => if p.1 == i.vendorId then (p.1, p.2 + i.total_price) else p) := by
        unfold vtStep
        rw [if_pos h]
      have hkeys : (acc.map (fun p =>
            if p.1 == i.vendorId then (p.1, p.2 + i.total_price) else p)).map Prod.fst
          = acc.map Prod.fst := by
        rw [List.map_map]
        apply List.map_eq_map_iff.mpr
        intro p hp
        by_cases hh : p.1 = i.vendorId
        · simp [Function.comp, hh]
        · simp [Function.comp, hh]
      have hnd' : ((acc.map (fun p =>
            if p.1 == i.vendorId then (p.1, p.2 + i.total_price) else p)).map Prod.fst).Nodup := by
        rw [hkeys]
        exact hnd
      rw [hstep, ih _ hnd', hkeys]
      have hnv : newVendors (i :: rest) (acc.map Prod.fst) = newVendors rest (acc.map Prod.fst) := by
        rw [newVendors_cons, if_pos h]
      rw [hnv]
      congr 1
      · rw [List.map_map]
        apply List.map_eq_map_iff.mpr
        intro p hp
        by_cases hh : p.1 = i.vendorId
        · have hb : (p.1 == i.vendorId) = true := by simpa using hh
          simp only [Function.comp, hb, if_pos]
          rw [vendorSum_cons, if_pos hh.symm]
          simp [Rat.add_assoc]
        · have hb : ¬ (p.1 == i.vendorId) = true := by simpa using hh
          simp only [Function.comp, Bool.not_eq_true] at hb
          simp only [Function.comp, hb, Bool.false_eq_true, if_false]
          rw [vendorSum_cons, if_neg (fun hx => hh hx.symm)]
          simp
      · apply List.map_eq_map_iff.mpr
        intro v hv
        obtain ⟨hvk, -⟩ := (mem_newVendors rest (acc.map Prod.fst) v).mp hv
        have hvne : i.vendorId ≠ v := by
          intro hh
          exact hvk (hh ▸ List.elem_iff.mp h)
        rw [vendorSum_cons, if_neg hvne]
        simp
    · have hstep : vtStep acc i = acc ++ [(i.vendorId, i.total_price)] := by
        unfold vtStep
        rw [if_neg h]
      have hiv : i.vendorId ∉ acc.map Prod.fst := fun hm => h (List.elem_iff.mpr hm)
      have hkeys : ((acc ++ [(i.vendorId, i.total_price)]).map Prod.fst)
          = acc.map Prod.fst ++ [i.vendorId] := by
        simp
      have hnd' : (((acc ++ [(i.vendorId, i.total_price)]).map Prod.fst)).Nodup := by
        rw [hkeys]
        simp [List.nodup_append, hnd, hiv]
      rw [hstep, ih _ hnd', hkeys]
      have hnv : newVendors (i :: rest) (acc.map Prod.fst)
          = i.vendorId :: newVendors rest (i.vendorId :: acc.map Prod.fst) := by
        rw [newVendors_cons, if_neg h]
      rw [hnv]
      rw [newVendors_congr rest (acc.map Prod.fst ++ [i.vendorId])
            (i.vendorId :: acc.map Prod.fst) (fun v => by simp; tauto)]
      rw [List.map_append]
      rw [List.append_assoc]
      congr 1
      · apply List.map_eq_map_iff.mpr
        intro p hp
        have hpk : p.1 ∈ acc.map Prod.fst := List.mem_map_of_mem _ hp
        have hne : i.vendorId ≠ p.1 := fun hh => hiv (hh ▸ hpk)
        rw [vendorSum_cons, if_neg hne]
        simp
      · simp only [List.map_cons, List.map_nil, List.singleton_append]
        congr 1
        · rw [vendorSum_cons, if_pos rfl]
        · apply List.map_eq_map_iff.mpr
          intro v hv
          obtain ⟨hvk, -⟩ := (mem_newVendors rest (i.vendorId :: acc.map Prod.fst) v).mp hv
          have hvne : i.vendorId ≠ v := fun hh => hvk (by simp [hh])
          rw [vendorSum_cons, if_neg hvne]
          simp

/-- `vendor_totals` in closed form: the distinct vendors of the order's
items, in first-occurrence order, each with the sum of their items'
`total_price`. -/
theorem vendorTotals_eq (items : List OrderItem) :
    vendorTotals items = (newVendors items []).map (fun v => (v, vendorSum items v)) := by
  unfold vendorTotals
  rw [foldl_vtStep_eq items [] (by simp)]
  simp

/-- Moving one fresh vendor's total out of a complement-filtered sum. -/
theorem vendorSum_filter_split (l : List OrderItem) (ks : List Nat) (w : Nat)
    (hw : w ∉ ks) :
    vendorSum l w +
      ((l.filter (fun i => !((w :: ks).contains i.vendorId))).map
        (fun i => i.total_price)).sum =
      ((l.filter (fun i => !(ks.contains i.vendorId))).map (fun i => i.total_price)).sum := by
  induction l with
  | nil => simp [vendorSum_nil]
  | cons i rest ih =>
    rw [vendorSum_cons, List.filter_cons, List.filter_cons]
    by_cases h1 : i.vendorId = w
    · have hA : ¬ (!((w :: ks).contains i.vendorId)) = true := by simp [h1]
      have hB : (!(ks.contains i.vendorId)) = true := by
        simp [h1]
        exact hw
      rw [if_pos h1, if_neg hA, if_pos hB]
      simp only [List.map_cons, List.sum_cons]
      rw [← ih]
      ring
    · by_cases h2 : i.vendorId ∈ ks
      · have hA : ¬ (!((w :: ks).contains i.vendorId)) = true := by simp [h2]
        have hB : ¬ (!(ks.contains i.vendorId)) = true := by simp [h2]
        rw [if_neg h1, if_neg hA, if_neg hB]
        rw [← ih]
        ring
      · have hA : (!((w :: ks).contains i.vendorId)) = true := by
          simp
          exact ⟨fun hh => h1 hh, h2⟩
        have hB : (!(ks.contains i.vendorId)) = true := by simp [h2]
        rw [if_neg h1, if_pos hA, if_pos hB]
        simp only [List.map_cons, List.sum_cons]
        rw [← ih]
        ring

/-- The per-vendor totals of the distinct vendors add up to the total over
the items not already claimed by `ks`. -/
theorem sum_vendorSum_newVendors (items : List OrderItem) (ks : List Nat) :
    ((newVendors items ks).map (fun v => vendorSum items v)).sum =
      ((items.filter (fun i => !(ks.contains i.vendorId))).map
        (fun i => i.total_price)).sum := by
  induction items generalizing ks with
  | nil => simp [newVendors_nil]
  | cons i rest ih =>
    rw [newVendors_cons, List.filter_cons]
    by_cases hc : ks.contains i.vendorId
    · have hB : ¬ (!(ks.contains i.vendorId)) = true := by
        simp
        exact List.elem_iff.mp hc
      rw [if_pos hc, if_neg hB]
      have hmap : (newVendors rest ks).map (fun v => vendorSum (i :: rest) v)
          = (newVendors rest ks).map (fun v => vendorSum rest v) := by
        apply List.map_eq_map_iff.mpr
        intro v hv
        obtain ⟨hvk, -⟩ := (mem_newVendors rest ks v).mp hv
        have hvne : i.vendorId ≠ v := fun hh => hvk (hh ▸ List.elem_iff.mp hc)
        rw [vendorSum_cons, if_neg hvne]
        simp
      rw [hmap, ih ks]
    · have hB : (!(ks.contains i.vendorId)) = true := by
        simp
        exact fun hm => hc (List.elem_iff.mpr hm)
      have hcm : i.vendorId ∉ ks := fun hm => hc (List.elem_iff.mpr hm)
      rw [if_neg hc, if_pos hB]
      simp only [List.map_cons, List.sum_cons]
      have hmap : (newVendors rest (i.vendorId :: ks)).map (fun v => vendorSum (i :: rest) v)
          = (newVendors rest (i.vendorId :: ks)).map (fun v => vendorSum rest v) := by
        apply List.map_eq_map_iff.mpr
        intro v hv
        obtain ⟨hvk, -⟩ := (mem_newVendors rest (i.vendorId :: ks) v).mp hv
        have hvne : i.vendorId ≠ v := fun hh => hvk (by simp [hh])
        rw [vendorSum_cons, if_neg hvne]
        simp
      rw [hmap, ih (i.vendorId :: ks)]
      rw [vendorSum_cons, if_pos rfl]
      rw [← vendorSum_filter_split rest ks i.vendorId hcm]
      ring

/-! ## Helper lemmas: order lookup and replacement -/

theorem findOrder_replaceOrder (os : List Order) (oid : Nat) (o2 : Order)
    (h2 : o2.id = oid) (x : Nat) :
    findOrder (replaceOrder os oid o2) x =
      (findOrder os x).map (fun o => if o.id == oid then o2 else o) := by
  unfold findOrder replaceOrder
  refine find?_map_of_key os _ Order.id (fun o => ?_) x
  by_cases h : o.id == oid
  · rw [if_pos h, h2]
    exact ((by simpa using h : o.id = oid)).symm
  · rw [if_neg h]

theorem findOrder_replace_self (os : List Order) (oid : Nat) (o o2 : Order)
    (h : findOrder os oid = some o) (h2 : o2.id = oid) :
    findOrder (replaceOrder os oid o2) oid = some o2 := by
  rw [findOrder_replaceOrder os oid o2 h2 oid, h]
  have ho : o.id = oid := by
    have h1 := h
    unfold findOrder at h1
    simpa using List.find?_some h1
  simp [ho]

theorem findOrder_replace_ne (os : List Order) (oid : Nat) (o2 : Order)
    (h2 : o2.id = oid) (x : Nat) (hx : x ≠ oid) :
    findOrder (replaceOrder os oid o2) x = findOrder os x := by
  rw [findOrder_replaceOrder os oid o2 h2 x]
  cases hf : findOrder os x with
  | none => rfl
  | some o =>
    have ho : o.id = x := by
      have h1 := hf
      unfold findOrder at h1
      simpa using List.find?_some h1
    have : ¬ (o.id == oid) = true := by
      simp [ho]
      exact hx
    simp only [Option.map_some']
    rw [if_neg this]

/-! ## Helper lemmas: status update endpoint, one lemma per target status -/

theorem update_status_PAID (st : St) (oid : Nat) (o : Order) (tr : String) (now : Nat)
    (h : findOrder st.orders oid = some o) (hne : o.status ≠ "PAID") :
    update_order_status st oid (some "PAID") tr now =
      (.updated o.status "PAID",
       { st with
         orders := replaceOrder st.orders oid
           { o with status := "PAID", paid_at := some now },
         earnings := st.earnings.map (fun e =>
           if e.orderId == oid then { e with status := "available" } else e) }) := by
  unfold update_order_status
  rw [h]
  dsimp only
  rw [if_neg (by decide)]
  rw [if_neg (by decide)]
  rw [if_neg (fun hh => hne hh.symm)]
  rw [if_pos ⟨rfl, fun hh => hne hh⟩]

theorem update_status_SHIPPED (st : St) (oid : Nat) (o : Order) (tr : String) (now : Nat)
    (h : findOrder st.orders oid = some o) (hne : o.status ≠ "SHIPPED") :
    update_order_status st oid (some "SHIPPED") tr now =
      (.updated o.status "SHIPPED",
       { st with
         orders := replaceOrder st.orders oid
           { o with
             status := "SHIPPED"
             shipped_at := some now
             tracking_number := if tr ≠ "" then tr else o.tracking_number } }) := by
  unfold update_order_status
  rw [h]
  dsimp only
  rw [if_neg (by decide)]
  rw [if_neg (by decide)]
  rw [if_neg (fun hh => hne hh.symm)]
  rw [if_neg (by rintro ⟨hh, -⟩; exact absurd hh (by decide))]
  rw [if_pos ⟨rfl, fun hh => hne hh⟩]

theorem update_status_DELIVERED (st : St) (oid : Nat) (o : Order) (tr : String) (now : Nat)
    (h : findOrder st.orders oid = some o) (hne : o.status ≠ "DELIVERED") :
    update_order_status st oid (some "DELIVERED") tr now =
      (.updated o.status "DELIVERED",
       { st with
         orders := replaceOrder st.orders oid
           { o with
             status := "DELIVERED"
             delivered_at := some now
             shipped_at := if o.shipped_at = none then some now else o.shipped_at } }) := by
  unfold update_order_status
  rw [h]
  dsimp only
  rw [if_neg (by decide)]
  rw [if_neg (by decide)]
  rw [if_neg (fun hh => hne hh.symm)]
  rw [if_neg (by rintro ⟨hh, -⟩; exact absurd hh (by decide))]
  rw [if_neg (by rintro ⟨hh, -⟩; exact absurd hh (by decide))]
  rw [if_pos ⟨rfl, fun hh => hne hh⟩]

theorem update_status_CANCELLED (st : St) (oid : Nat) (o : Order) (tr : String) (now : Nat)
    (h : findOrder st.orders oid = some o) (hne : o.status ≠ "CANCELLED") :
    update_order_status st oid (some "CANCELLED") tr now =
      (.updated o.status "CANCELLED",
       { st with
         orders := replaceOrder st.orders oid { o with status := "CANCELLED" } }) := by
  unfold update_order_status
  rw [h]
  dsimp only
  rw [if_neg (by decide)]
  rw [if_neg (by decide)]
  rw [if_neg (fun hh => hne hh.symm)]
  rw [if_neg (by rintro ⟨hh, -⟩; exact absurd hh (by decide))]
  rw [if_neg (by rintro ⟨hh, -⟩; exact absurd hh (by decide))]
  rw [if_neg (by rintro ⟨hh, -⟩; exact absurd hh (by decide))]

/-! ## Helper lemmas: cancellation -/

theorem cancelOrder_ok (st : St) (oid : Nat) (reason : String) (o : Order)
    (h : findOrder st.orders oid = some o) (hc : can_be_cancelled o = true) :
    cancelOrder st oid reason = .ok
      { st with
        products := (itemsOfOrder st.orderItems oid).foldl
          (fun ps i => bumpInventory ps i.productId i.quantity) st.products,
        orders := replaceOrder st.orders oid
          { o with
            status := "CANCELLED"
            internal_notes := o.internal_notes ++ "\nCancelled: " ++ reason } } := by
  unfold cancelOrder
  rw [h]
  dsimp only
  rw [if_neg (show ¬ ¬ can_be_cancelled o = true by simp [hc])]

theorem cancelOrder_not_cancellable (st : St) (oid : Nat) (reason : String) (o : Order)
    (h : findOrder st.orders oid = some o) (hc : can_be_cancelled o = false) :
    cancelOrder st oid reason = .error "Order cannot be cancelled in current status." := by
  unfold cancelOrder
  rw [h]
  dsimp only
  rw [if_pos (by simp [hc])]

/-! ## Helper lemmas: checkout assembly -/

theorem processItems_ok_orderIds (oid : Nat) (cart : List CartItem)
    (ps ps' : List Product) (ois : List OrderItem)
    (h : processItems oid ps cart = .ok (ps', ois)) :
    ∀ i ∈ ois, i.orderId = oid := by
  intro i hi
  have hmap := processItems_ok_items oid cart ps ps' ois h
  have hmem : (i.orderId, i.productId, i.quantity)
      ∈ cart.map (fun c => (oid, c.productId, c.quantity)) := by
    rw [← hmap]
    exact List.mem_map_of_mem _ hi
  obtain ⟨c, -, hc⟩ := List.mem_map.mp hmem
  exact (congrArg Prod.fst hc).symm

theorem findOrder_append_fresh (os : List Order) (o : Order)
    (hfresh : ∀ o' ∈ os, o'.id ≠ o.id) :
    findOrder (os ++ [o]) o.id = some o := by
  unfold findOrder
  rw [List.find?_append]
  have h1 : os.find? (fun o' => o'.id == o.id) = none := by
    rw [List.find?_eq_none]
    intro o' ho'
    simp
    exact hfresh o' ho'
  rw [h1]
  simp

theorem itemsOfOrder_append_fresh (pre ois : List OrderItem) (oid : Nat)
    (hfresh : ∀ i ∈ pre, i.orderId ≠ oid) (hall : ∀ i ∈ ois, i.orderId = oid) :
    itemsOfOrder (pre ++ ois) oid = ois := by
  unfold itemsOfOrder
  rw [List.filter_append]
  have h1 : pre.filter (fun i => i.orderId == oid) = [] := by
    rw [List.filter_eq_nil_iff]
    intro i hi
    simp
    exact hfresh i hi
  have h2 : ois.filter (fun i => i.orderId == oid) = ois := by
    rw [List.filter_eq_self]
    intro i hi
    simp
    exact hall i hi
  rw [h1, h2, List.nil_append]

theorem serializerCreate_ok (userId : Nat) (req : CheckoutReq) (addrs : List Address)
    (methods : List ShippingMethod) (st : St) (orderId : Nat) (m : ShippingMethod)
    (ps' : List Product) (ois : List OrderItem)
    (hA : addrs.any (fun a =>
      a.id == req.shipping_address_id && a.userId == userId && a.type == "shipping") = true)
    (hB : addrs.any (fun a =>
      a.id == req.billing_address_id && a.userId == userId && a.type == "billing") = true)
    (hM : methods.find? (fun m' => m'.id == req.shipping_method_id && m'.is_active) = some m)
    (hC : st.cartItems ≠ [])
    (hP : processItems orderId st.products st.cartItems = .ok (ps', ois)) :
    serializerCreate userId req addrs methods st orderId = .ok
      { st with
        products := ps'
        orders := st.orders ++
          [{ id := orderId
             status := "PENDING"
             subtotal := cart_subtotal st.products st.cartItems
             tax_amount := cart_subtotal st.products st.cartItems * (8 / 100)
             shipping_amount := m.price
             discount_amount := 0
             total_amount := cart_subtotal st.products st.cartItems
               + cart_subtotal st.products st.cartItems * (8 / 100) + m.price
             paid_at := none
             shipped_at := none
             delivered_at := none
             tracking_number := ""
             customer_notes := req.customer_notes
             internal_notes := "" }]
        orderItems := st.orderItems ++ ois
        cartItems := [] } := by
  unfold serializerCreate
  rw [if_neg (not_not_intro hA), if_neg (not_not_intro hB), hM]
  dsimp only
  rw [if_neg (by simpa [List.isEmpty_iff] using hC)]
  rw [hP]

theorem serializerCreate_invalid_shipping (userId : Nat) (req : CheckoutReq)
    (addrs : List Address) (methods : List ShippingMethod) (st : St) (orderId : Nat)
    (hA : ¬ addrs.any (fun a =>
      a.id == req.shipping_address_id && a.userId == userId && a.type == "shipping") = true) :
    serializerCreate userId req addrs methods st orderId = .error .invalidShippingAddress := by
  unfold serializerCreate
  rw [if_pos hA]

theorem serializerCreate_invalid_billing (userId : Nat) (req : CheckoutReq)
    (addrs : List Address) (methods : List ShippingMethod) (st : St) (orderId : Nat)
    (hA : addrs.any (fun a =>
      a.id == req.shipping_address_id && a.userId == userId && a.type == "shipping") = true)
    (hB : ¬ addrs.any (fun a =>
      a.id == req.billing_address_id && a.userId == userId && a.type == "billing") = true) :
    serializerCreate userId req addrs methods st orderId = .error .invalidBillingAddress := by
  unfold serializerCreate
  rw [if_neg (not_not_intro hA), if_pos hB]

theorem serializerCreate_invalid_method (userId : Nat) (req : CheckoutReq)
    (addrs : List Address) (methods : List ShippingMethod) (st : St) (orderId : Nat)
    (hA : addrs.any (fun a =>
      a.id == req.shipping_address_id && a.userId == userId && a.type == "shipping") = true)
    (hB : addrs.any (fun a =>
      a.id == req.billing_address_id && a.userId == userId && a.type == "billing") = true)
    (hM : methods.find? (fun m' => m'.id == req.shipping_method_id && m'.is_active) = none) :
    serializerCreate userId req addrs methods st orderId = .error .invalidShippingMethod := by
  unfold serializerCreate
  rw [if_neg (not_not_intro hA), if_neg (not_not_intro hB), hM]

theorem serializerCreate_empty_cart (userId : Nat) (req : CheckoutReq)
    (addrs : List Address) (methods : List ShippingMethod) (st : St) (orderId : Nat)
    (m : ShippingMethod)
    (hA : addrs.any (fun a =>
      a.id == req.shipping_address_id && a.userId == userId && a.type == "shipping") = true)
    (hB : addrs.any (fun a =>
      a.id == req.billing_address_id && a.userId == userId && a.type == "billing") = true)
    (hM : methods.find? (fun m' => m'.id == req.shipping_method_id && m'.is_active) = some m)
    (hC : st.cartItems = []) :
    serializerCreate userId req addrs methods st orderId = .error .emptyCart := by
  unfold serializerCreate
  rw [if_neg (not_not_intro hA), if_neg (not_not_intro hB), hM]
  dsimp only
  rw [if_pos (by simp [List.isEmpty_iff, hC])]

theorem serializerCreate_insufficient (userId : Nat) (req : CheckoutReq)
    (addrs : List Address) (methods : List ShippingMethod) (st : St) (orderId : Nat)
    (m : ShippingMethod) (e : CheckoutErr)
    (hA : addrs.any (fun a =>
      a.id == req.shipping_address_id && a.userId == userId && a.type == "shipping") = true)
    (hB : addrs.any (fun a =>
      a.id == req.billing_address_id && a.userId == userId && a.type == "billing") = true)
    (hM : methods.find? (fun m' => m'.id == req.shipping_method_id && m'.is_active) = some m)
    (hC : st.cartItems ≠ [])
    (hP : processItems orderId st.products st.cartItems = .error e) :
    serializerCreate userId req addrs methods st orderId = .error e := by
  unfold serializerCreate
  rw [if_neg (not_not_intro hA), if_neg (not_not_intro hB), hM]
  dsimp only
  rw [if_neg (by simpa [List.isEmpty_iff] using hC)]
  rw [hP]

theorem serializerCreate_ok_inv (userId : Nat) (req : CheckoutReq) (addrs : List Address)
    (methods : List ShippingMethod) (st : St) (orderId : Nat) (st2 : St)
    (h : serializerCreate userId req addrs methods st orderId = .ok st2) :
    ∃ m ps' ois,
      methods.find? (fun m' => m'.id == req.shipping_method_id && m'.is_active) = some m ∧
      st.cartItems ≠ [] ∧
      processItems orderId st.products st.cartItems = .ok (ps', ois) ∧
      st2 = { st with
              products := ps'
              orders := st.orders ++
                [{ id := orderId
                   status := "PENDING"
                   subtotal := cart_subtotal st.products st.cartItems
                   tax_amount := cart_subtotal st.products st.cartItems * (8 / 100)
                   shipping_amount := m.price
                   discount_amount := 0
                   total_amount := cart_subtotal st.products st.cartItems
                     + cart_subtotal st.products st.cartItems * (8 / 100) + m.price
                   paid_at := none
                   shipped_at := none
                   delivered_at := none
                   tracking_number := ""
                   customer_notes := req.customer_notes
                   internal_notes := "" }]
              orderItems := st.orderItems ++ ois
              cartItems := [] } := by
  unfold serializerCreate at h
  by_cases c1 : ¬ addrs.any (fun a =>
      a.id == req.shipping_address_id && a.userId == userId && a.type == "shipping") = true
  · rw [if_pos c1] at h
    exact absurd h (by simp)
  · rw [if_neg c1] at h
    by_cases c2 : ¬ addrs.any (fun a =>
        a.id == req.billing_address_id && a.userId == userId && a.type == "billing") = true
    · rw [if_pos c2] at h
      exact absurd h (by simp)
    · rw [if_neg c2] at h
      cases hM : methods.find? (fun m' => m'.id == req.shipping_method_id && m'.is_active) with
      | none =>
        rw [hM] at h
        exact absurd h (by simp)
      | some m =>
        rw [hM] at h
        dsimp only at h
        by_cases c3 : st.cartItems.isEmpty = true
        · rw [if_pos c3] at h
          exact absurd h (by simp)
        · rw [if_neg c3] at h
          cases hP : processItems orderId st.products st.cartItems with
          | error e =>
            rw [hP] at h
            exact absurd h (by simp)
          | ok res =>
            obtain ⟨ps', ois⟩ := res
            rw [hP] at h
            injection h with h
            refine ⟨m, ps', ois, rfl, ?_, rfl, h.symm⟩
            intro hnil
            exact c3 (by simp [List.isEmpty_iff, hnil])

theorem checkout_eq_ok (userId : Nat) (req : CheckoutReq) (addrs : List Address)
    (methods : List ShippingMethod) (st : St) (orderId : Nat) (st2 : St)
    (h : serializerCreate userId req addrs methods st orderId = .ok st2) :
    checkout userId req addrs methods st orderId =
      .ok { st2 with earnings := st2.earnings ++
        createVendorEarnings orderId (itemsOfOrder st2.orderItems orderId) } := by
  unfold checkout itemsOfOrder
  rw [h]

theorem checkout_eq_error (userId : Nat) (req : CheckoutReq) (addrs : List Address)
    (methods : List ShippingMethod) (st : St) (orderId : Nat) (e : CheckoutErr)
    (h : serializerCreate userId req addrs methods st orderId = .error e) :
    checkout userId req addrs methods st orderId = .error e := by
  unfold checkout
  rw [h]

/-! ## Helper lemmas: cart quantities and order item deletion -/

theorem sumQty_of_map_eq (ois : List OrderItem) (cart : List CartItem) (oid x : Nat)
    (h : ois.map (fun i => (i.orderId, i.productId, i.quantity))
       = cart.map (fun c => (oid, c.productId, c.quantity))) :
    sumQty ois x = ((cart.filter (fun c => c.productId == x)).map
      (fun c => c.quantity)).sum := by
  induction ois generalizing cart with
  | nil =>
    cases cart with
    | nil => simp [sumQty_nil]
    | cons c crest => simp at h
  | cons i rest ih =>
    cases cart with
    | nil => simp at h
    | cons c crest =>
      simp only [List.map_cons] at h
      injection h with h1 h2
      have hpid : i.productId = c.productId := congrArg (fun t => t.2.1) h1
      have hq : i.quantity = c.quantity := congrArg (fun t => t.2.2) h1
      rw [sumQty_cons, List.filter_cons, ih crest h2]
      by_cases hx : c.productId = x
      · rw [if_pos (hpid.trans hx), if_pos (by simp [hx])]
        simp only [List.map_cons, List.sum_cons]
        omega
      · rw [if_neg (fun hh => hx (hpid.symm.trans hh : c.productId = x)),
          if_neg (by simp [hx])]
        omega

theorem filter_singleton_of_nodup (cart : List CartItem) (ci : CartItem)
    (hnd : (cart.map (fun c => c.productId)).Nodup) (hmem : ci ∈ cart) :
    cart.filter (fun c => c.productId == ci.productId) = [ci] := by
  induction cart with
  | nil => cases hmem
  | cons c rest ih =>
    rw [List.map_cons] at hnd
    have hnd1 := List.nodup_cons.mp hnd
    rw [List.filter_cons]
    rcases List.mem_cons.mp hmem with rfl | hmem'
    · rw [if_pos (by simp)]
      have hrest : rest.filter (fun c' => c'.productId == ci.productId) = [] := by
        rw [List.filter_eq_nil_iff]
        intro a ha
        simp
        intro hh
        exact absurd (hh ▸ List.mem_map_of_mem (fun c' => c'.productId) ha) hnd1.1
      rw [hrest]
    · have hne : c.productId ≠ ci.productId := by
        intro hh
        exact hnd1.1 (by rw [hh]; exact List.mem_map_of_mem _ hmem')
      rw [if_neg (by simp [hne])]
      exact ih hnd1.2 hmem'

theorem deleteOrderItem_found (st : St) (oid pid : Nat) (it : OrderItem) (o : Order)
    (hit : st.orderItems.find? (fun i => i.orderId == oid && i.productId == pid) = some it)
    (ho : findOrder st.orders oid = some o)
    (hs : o.status = "PENDING" ∨ o.status = "CANCELLED") :
    deleteOrderItem st oid pid =
      { st with
        products := bumpInventory st.products it.productId it.quantity
        orderItems := st.orderItems.filter
          (fun i => ¬ (i.orderId == oid && i.productId == pid)) } := by
  unfold deleteOrderItem
  rw [hit]
  dsimp only
  rw [ho]
  dsimp only
  rw [if_pos hs]

/-! ## Concrete fixtures used by witnesses and counterexamples -/

/-- A plain product: price 10, no sale, inventory 3, vendor 7. -/
def exProduct1 : Product :=
  { id := 1, sku := "SKU-A", title := "Alpha", price := 10, sale_price := none
    inventory := 3, vendorId := 7, is_active := true }

/-- A discounted product: price 20, sale 15, inventory 1, vendor 8. -/
def exProduct2 : Product :=
  { id := 2, sku := "SKU-B", title := "Beta", price := 20, sale_price := some 15
    inventory := 1, vendorId := 8, is_active := true }

/-- A product whose sale price is above its regular price. -/
def exProduct3 : Product :=
  { id := 3, sku := "SKU-C", title := "Gamma", price := 10, sale_price := some 15
    inventory := 5, vendorId := 7, is_active := true }

/-- Shipping and billing addresses of user 5. -/
def exAddrs : List Address := [⟨1, 5, "shipping"⟩, ⟨2, 5, "billing"⟩]

/-- One active shipping method priced 5. -/
def exMethods : List ShippingMethod := [⟨1, 5, true⟩]

/-- A well-formed checkout request for user 5. -/
def exReq : CheckoutReq :=
  { shipping_address_id := 1, billing_address_id := 2, shipping_method_id := 1
    payment_method := "stripe", customer_notes := "" }

/-- A freshly-created PENDING order with no timestamps. -/
def exOrder : Order :=
  { id := 9, status := "PENDING", subtotal := 30, tax_amount := 0, shipping_amount := 0
    discount_amount := 0, total_amount := 30, paid_at := none, shipped_at := none
    delivered_at := none, tracking_number := "", customer_notes := "", internal_notes := "" }

/-- A state about to check out: two products, two cart lines. -/
def exStCheckout : St :=
  { products := [exProduct1, exProduct2], cartItems := [⟨1, 3⟩, ⟨2, 1⟩]
    orders := [], orderItems := [], earnings := [] }

/-- A state holding one PENDING order of 3 Alpha units with its earnings row. -/
def exStOrder : St :=
  { products := [exProduct1]
    cartItems := []
    orders := [exOrder]
    orderItems := [{ orderId := 9, productId := 1, product_sku := "SKU-A"
                     product_title := "Alpha", product_price := 10, quantity := 3
                     unit_price := 10, total_price := 30, vendorId := 7 }]
    earnings := [mkVendorEarnings 7 9 30 (3 / 2)] }

/-! ## Claim C5 -/

/-- Claim C5: for every created order, the earnings rows hold exactly one row
per distinct vendor of the order's items, with `gross_amount` the sum of that
vendor's `total_price` values, `platform_fee = gross × 0.05`,
`net_amount = gross − fee`, status `pending`; and the rows'
`net_amount + platform_fee` sums to the items' `total_price` sum. -/
theorem C5_vendor_earnings_split (oid : Nat) (items : List OrderItem) :
    ((createVendorEarnings oid items).map (fun r => r.vendorId)).Nodup ∧
    (∀ v : Nat, (∃ r ∈ createVendorEarnings oid items, r.vendorId = v)
      ↔ ∃ i ∈ items, i.vendorId = v) ∧
    (∀ r ∈ createVendorEarnings oid items,
      r.orderId = oid ∧
      r.gross_amount = vendorSum items r.vendorId ∧
      r.platform_fee = r.gross_amount * (5 / 100) ∧
      r.net_amount = r.gross_amount - r.platform_fee ∧
      r.status = "pending") ∧
    ((createVendorEarnings oid items).map
        (fun r => r.net_amount + r.platform_fee)).sum
      = (items.map (fun i => i.total_price)).sum := by
  have hrows : createVendorEarnings oid items
      = (newVendors items []).map (fun v =>
          mkVendorEarnings v oid (vendorSum items v) (vendorSum items v * (5 / 100))) := by
    unfold createVendorEarnings
    rw [vendorTotals_eq, List.map_map]
    rfl
  refine ⟨?_, ?_, ?_, ?_⟩
  · rw [hrows, List.map_map]
    have hid : ((fun r : VendorEarnings => r.vendorId) ∘ fun v =>
        mkVendorEarnings v oid (vendorSum items v) (vendorSum items v * (5 / 100)))
        = fun v => v := by
      funext v
      rfl
    rw [hid]
    simpa using newVendors_nodup items []
  · intro v
    rw [hrows]
    constructor
    · rintro ⟨r, hr, hv⟩
      obtain ⟨w, hw, hrw⟩ := List.mem_map.mp hr
      have hwv : w = v := by
        rw [← hv, ← hrw]
        rfl
      exact hwv ▸ ((mem_newVendors items [] w).mp hw).2
    · intro hex
      have hv : v ∈ newVendors items [] :=
        (mem_newVendors items [] v).mpr ⟨by simp, hex⟩
      exact ⟨_, List.mem_map_of_mem _ hv, rfl⟩
  · intro r hr
    rw [hrows] at hr
    obtain ⟨w, hw, hrw⟩ := List.mem_map.mp hr
    rw [← hrw]
    exact ⟨rfl, rfl, rfl, rfl, rfl⟩
  · rw [hrows, List.map_map]
    have hcongr : ((fun r : VendorEarnings => r.net_amount + r.platform_fee) ∘ fun v =>
        mkVendorEarnings v oid (vendorSum items v) (vendorSum items v * (5 / 100)))
        = fun v => vendorSum items v := by
      funext v
      show vendorSum items v - vendorSum items v * (5 / 100)
          + vendorSum items v * (5 / 100) = vendorSum items v
      ring
    rw [hcongr]
    simpa using sum_vendorSum_newVendors items []

theorem findOrder_id (os : List Order) (oid : Nat) (o : Order)
    (h : findOrder os oid = some o) : o.id = oid := by
  unfold findOrder at h
  simpa using List.find?_some h

/-! ## Claim C9 -/

/-- Claim C9: updating an order's status to CANCELLED through the status
update endpoint changes only the status field — products (inventory),
earnings, cart and order items are untouched, and no timestamp is set; the
order record differs from the original only in its status. -/
theorem C9_cancel_via_status_update_frame (st : St) (oid : Nat) (o : Order)
    (tr : String) (now : Nat)
    (h : findOrder st.orders oid = some o) (hne : o.status ≠ "CANCELLED") :
    (update_order_status st oid (some "CANCELLED") tr now).1
      = .updated o.status "CANCELLED" ∧
    (update_order_status st oid (some "CANCELLED") tr now).2.products = st.products ∧
    (update_order_status st oid (some "CANCELLED") tr now).2.earnings = st.earnings ∧
    (update_order_status st oid (some "CANCELLED") tr now).2.cartItems = st.cartItems ∧
    (update_order_status st oid (some "CANCELLED") tr now).2.orderItems = st.orderItems ∧
    findOrder (update_order_status st oid (some "CANCELLED") tr now).2.orders oid
      = some { o with status := "CANCELLED" } := by
  rw [update_status_CANCELLED st oid o tr now h hne]
  refine ⟨rfl, rfl, rfl, rfl, rfl, ?_⟩
  exact findOrder_replace_self st.orders oid o _ h (findOrder_id st.orders oid o h)

/-- Witness for C9 at a concrete state. -/
theorem C9_witness :
    findOrder exStOrder.orders 9 = some exOrder ∧
    ((update_order_status exStOrder 9 (some "CANCELLED") "" 5).2.products
        = exStOrder.products ∧
      findOrder (update_order_status exStOrder 9 (some "CANCELLED") "" 5).2.orders 9
        = some { exOrder with status := "CANCELLED" }) :=
  ⟨rfl,
   (C9_cancel_via_status_update_frame exStOrder 9 exOrder "" 5 rfl (by decide)).2.1,
   (C9_cancel_via_status_update_frame exStOrder 9 exOrder "" 5 rfl (by decide)).2.2.2.2.2⟩

/-! ## Claim C2 -/

/-- Claim C2 (evaluation at the failing input): the status update endpoint
accepts the CANCELLED → SHIPPED transition — it reports success and sets the
status to SHIPPED with a fresh `shipped_at` — although the specified
lifecycle makes CANCELLED terminal. Only same-status requests and values
outside the choices are rejected; no forward-path check exists. -/
theorem C2_cancelled_to_shipped_accepted :
    (update_order_status
        { exStOrder with orders := [{ exOrder with status := "CANCELLED" }] }
        9 (some "SHIPPED") "TRK123" 2).1 = .updated "CANCELLED" "SHIPPED" ∧
    findOrder (update_order_status
        { exStOrder with orders := [{ exOrder with status := "CANCELLED" }] }
        9 (some "SHIPPED") "TRK123" 2).2.orders 9
      = some { exOrder with
          status := "SHIPPED", shipped_at := some 2, tracking_number := "TRK123" } :=
  ⟨rfl, rfl⟩

/-! ## Claim C3 -/

/-- Claim C3 (counterexample): `paid_at` is overwritten on a second entry to
PAID. Starting from the PENDING order of `exStOrder`, the update sequence
PAID (t=1), CANCELLED (t=2), PAID (t=3) — every step accepted by the
endpoint — leaves `paid_at = 3`, although it had been set to 1. -/
theorem C3_paid_at_overwritten :
    (findOrder (update_order_status exStOrder 9 (some "PAID") "" 1).2.orders 9).map
        (fun o => o.paid_at) = some (some 1) ∧
    (findOrder (update_order_status
        (update_order_status
          (update_order_status exStOrder 9 (some "PAID") "" 1).2
          9 (some "CANCELLED") "" 2).2
        9 (some "PAID") "" 3).2.orders 9).map (fun o => o.paid_at) = some (some 3) :=
  ⟨rfl, rfl⟩

/-- Claim C3 (amended): every entry to PAID sets `paid_at := now` —
overwriting any earlier value, since the endpoint also accepts re-entry via
CANCELLED — and sets every earnings row of the order to `available`; entry
to SHIPPED sets `shipped_at := now` (and a non-empty tracking number); entry
to DELIVERED sets `delivered_at := now` and backfills `shipped_at` when it
was never set; along the single forward pass
PENDING → PAID → SHIPPED → DELIVERED each timestamp is set exactly once,
ending at the times of the three entries. -/
theorem update_orders_PAID (st : St) (oid : Nat) (o : Order) (tr : String) (now : Nat)
    (h : findOrder st.orders oid = some o) (hne : o.status ≠ "PAID") :
    findOrder (update_order_status st oid (some "PAID") tr now).2.orders oid
      = some { o with status := "PAID", paid_at := some now } := by
  rw [update_status_PAID st oid o tr now h hne]
  exact findOrder_replace_self _ oid o _ h (findOrder_id st.orders oid o h)

theorem update_orders_SHIPPED (st : St) (oid : Nat) (o : Order) (tr : String) (now : Nat)
    (h : findOrder st.orders oid = some o) (hne : o.status ≠ "SHIPPED") :
    findOrder (update_order_status st oid (some "SHIPPED") tr now).2.orders oid
      = some { o with
          status := "SHIPPED"
          shipped_at := some now
          tracking_number := if tr ≠ "" then tr else o.tracking_number } := by
  rw [update_status_SHIPPED st oid o tr now h hne]
  exact findOrder_replace_self _ oid o _ h (findOrder_id st.orders oid o h)

theorem update_orders_DELIVERED (st : St) (oid : Nat) (o : Order) (tr : String) (now : Nat)
    (h : findOrder st.orders oid = some o) (hne : o.status ≠ "DELIVERED") :
    findOrder (update_order_status st oid (some "DELIVERED") tr now).2.orders oid
      = some { o with
          status := "DELIVERED"
          delivered_at := some now
          shipped_at := if o.shipped_at = none then some now else o.shipped_at } := by
  rw [update_status_DELIVERED st oid o tr now h hne]
  exact findOrder_replace_self _ oid o _ h (findOrder_id st.orders oid o h)

/-- Claim C3 (amended): every entry to PAID sets `paid_at := now` —
overwriting any earlier value, since the endpoint also accepts re-entry via
CANCELLED — and sets every earnings row of the order to `available`; entry
to SHIPPED sets `shipped_at := now` (and a non-empty tracking number); entry
to DELIVERED sets `delivered_at := now` and backfills `shipped_at` when it
was never set; along the single forward pass
PENDING → PAID → SHIPPED → DELIVERED each timestamp is set exactly once,
ending at the times of the three entries. -/
theorem C3_timestamps_amended (st : St) (oid : Nat) (o : Order) (tr : String)
    (now t1 t2 t3 : Nat) (h : findOrder st.orders oid = some o) :
    (o.status ≠ "PAID" →
      update_order_status st oid (some "PAID") tr now =
        (.updated o.status "PAID",
         { st with
           orders := replaceOrder st.orders oid
             { o with status := "PAID", paid_at := some now },
           earnings := st.earnings.map (fun e =>
             if e.orderId == oid then { e with status := "available" } else e) })) ∧
    (o.status ≠ "SHIPPED" →
      update_order_status st oid (some "SHIPPED") tr now =
        (.updated o.status "SHIPPED",
         { st with
           orders := replaceOrder st.orders oid
             { o with
               status := "SHIPPED"
               shipped_at := some now
               tracking_number := if tr ≠ "" then tr else o.tracking_number } })) ∧
    (o.status ≠ "DELIVERED" →
      update_order_status st oid (some "DELIVERED") tr now =
        (.updated o.status "DELIVERED",
         { st with
           orders := replaceOrder st.orders oid
             { o with
               status := "DELIVERED"
               delivered_at := some now
               shipped_at := if o.shipped_at = none then some now else o.shipped_at } })) ∧
    (o.status = "PENDING" →
      findOrder (update_order_status
          (update_order_status
            (update_order_status st oid (some "PAID") tr t1).2
            oid (some "SHIPPED") tr t2).2
          oid (some "DELIVERED") tr t3).2.orders oid
        = some { o with
            status := "DELIVERED"
            paid_at := some t1
            shipped_at := some t2
            delivered_at := some t3
            tracking_number := if tr ≠ "" then tr else o.tracking_number }) := by
  refine ⟨fun hne => update_status_PAID st oid o tr now h hne,
    fun hne => update_status_SHIPPED st oid o tr now h hne,
    fun hne => update_status_DELIVERED st oid o tr now h hne,
    fun hpend => ?_⟩
  have g1 := update_orders_PAID st oid o tr t1 h (by rw [hpend]; decide)
  have g2 := update_orders_SHIPPED (update_order_status st oid (some "PAID") tr t1).2
    oid _ tr t2 g1 (by simp)
  have g3 := update_orders_DELIVERED (update_order_status
      (update_order_status st oid (some "PAID") tr t1).2
      oid (some "SHIPPED") tr t2).2
    oid _ tr t3 g2 (by simp)
  exact g3

/-- Witness for C3 (amended) at a concrete state. -/
theorem C3_timestamps_amended_witness :
    findOrder exStOrder.orders 9 = some exOrder ∧
    findOrder (update_order_status
        (update_order_status
          (update_order_status exStOrder 9 (some "PAID") "" 1).2
          9 (some "SHIPPED") "" 2).2
        9 (some "DELIVERED") "" 3).2.orders 9
      = some { exOrder with
          status := "DELIVERED"
          paid_at := some 1
          shipped_at := some 2
          delivered_at := some 3
          tracking_number := "" } :=
  ⟨rfl,
   by
    have h := (C3_timestamps_amended exStOrder 9 exOrder "" 0 1 2 3 rfl).2.2.2 (by decide)
    simpa using h⟩

/-! ## Claim C7 -/

theorem cart_subtotal_eq_sum (ps : List Product) (items : List CartItem) :
    cart_subtotal ps items = (items.map (fun ci => cartItem_total_price ps ci)).sum := by
  unfold cart_subtotal
  have hgen : ∀ (l : List CartItem) (init : Rat),
      l.foldl (fun total ci => total + cartItem_total_price ps ci) init
        = init + (l.map (fun ci => cartItem_total_price ps ci)).sum := by
    intro l
    induction l with
    | nil =>
      intro init
      simp
    | cons a l ih =>
      intro init
      rw [List.foldl_cons, ih]
      simp only [List.map_cons, List.sum_cons]
      ring
  rw [hgen items 0]
  ring

/-- Claim C7 (counterexample): the spec's effective price uses the sale
price only when lower than the regular price, but `current_price` uses any
nonzero sale price — for Gamma (price 10, sale 15) the implemented subtotal
is 15 while the spec's formula says 10. -/
theorem C7_subtotal_counterexample :
    cart_subtotal [exProduct3] [⟨3, 1⟩] = 15 ∧
    specSubtotal [exProduct3] [⟨3, 1⟩] = 10 ∧
    cart_subtotal [exProduct3] [⟨3, 1⟩] ≠ specSubtotal [exProduct3] [⟨3, 1⟩] := by
  have h1 : cart_subtotal [exProduct3] [⟨3, 1⟩] = 15 := by
    simp [cart_subtotal, cartItem_total_price, cartItem_unit_price, findProduct,
      current_price, exProduct3]
  have h2 : specSubtotal [exProduct3] [⟨3, 1⟩] = 10 := by
    simp [specSubtotal, specEffectivePrice, findProduct, exProduct3]
    norm_num
  refine ⟨h1, h2, ?_⟩
  rw [h1, h2]
  norm_num

/-- Claim C7 (amended): `subtotal()` is the sum over the cart's items of
quantity × the product's current price, where the current price is the sale
price whenever one is present and nonzero — even when it is not lower than
the regular price — and the regular price otherwise (a zero or absent sale
price falls back to the regular price). -/
theorem C7_subtotal_amended (ps : List Product) (items : List CartItem) :
    cart_subtotal ps items =
      (items.map (fun ci =>
        (match findProduct ps ci.productId with
         | some p =>
           (match p.sale_price with
            | some s => if s ≠ 0 then s else p.price
            | none => p.price)
         | none => 0) * (ci.quantity : Rat))).sum := by
  rw [cart_subtotal_eq_sum]
  rfl

/-! ## Claim C4 -/

theorem cancelOrder_ok_inv (st : St) (oid : Nat) (reason : String) (st' : St)
    (h : cancelOrder st oid reason = .ok st') :
    ∃ o, findOrder st.orders oid = some o ∧ can_be_cancelled o = true ∧
      st' = { st with
              products := (itemsOfOrder st.orderItems oid).foldl
                (fun ps i => bumpInventory ps i.productId i.quantity) st.products
              orders := replaceOrder st.orders oid
                { o with
                  status := "CANCELLED"
                  internal_notes := o.internal_notes ++ "\nCancelled: " ++ reason } } := by
  unfold cancelOrder at h
  cases hf : findOrder st.orders oid with
  | none =>
    rw [hf] at h
    exact absurd h (by simp)
  | some o =>
    rw [hf] at h
    dsimp only at h
    by_cases hc : can_be_cancelled o = true
    · rw [if_neg (not_not_intro hc)] at h
      injection h with h
      exact ⟨o, rfl, hc, h.symm⟩
    · rw [if_pos hc] at h
      exact absurd h (by simp)

/-- Claim C4: cancelling is legal only from PENDING or PAID (a not-cancellable
error otherwise); a successful cancel increments every product's inventory by
the total quantity that product has among the order's items; and cancelling a
PENDING order right after checkout restores every product's inventory to
exactly its pre-checkout value. -/
theorem C4_cancel_restores_inventory :
    (∀ (st : St) (oid : Nat) (reason : String) (o : Order),
      findOrder st.orders oid = some o →
      can_be_cancelled o = false →
      cancelOrder st oid reason = .error "Order cannot be cancelled in current status.") ∧
    (∀ (st : St) (oid : Nat) (reason : String) (st' : St),
      cancelOrder st oid reason = .ok st' →
      ∀ x, inventoryOf st'.products x =
        (inventoryOf st.products x).map
          (fun v => v + sumQty (itemsOfOrder st.orderItems oid) x)) ∧
    (∀ (userId : Nat) (req : CheckoutReq) (addrs : List Address)
        (methods : List ShippingMethod) (st : St) (orderId : Nat) (st2 : St)
        (reason : String) (st3 : St),
      serializerCreate userId req addrs methods st orderId = .ok st2 →
      (∀ o ∈ st.orders, o.id ≠ orderId) →
      (∀ i ∈ st.orderItems, i.orderId ≠ orderId) →
      cancelOrder st2 orderId reason = .ok st3 →
      ∀ x, inventoryOf st3.products x = inventoryOf st.products x) := by
  refine ⟨?_, ?_, ?_⟩
  · intro st oid reason o hf hc
    exact cancelOrder_not_cancellable st oid reason o hf hc
  · intro st oid reason st' h x
    obtain ⟨o, hf, hc, hshape⟩ := cancelOrder_ok_inv st oid reason st' h
    rw [hshape]
    exact inventoryOf_foldl_bump (itemsOfOrder st.orderItems oid) st.products x
  · intro userId req addrs methods st orderId st2 reason st3 hser hfo hfi hcan x
    obtain ⟨m, ps', ois, hM, hC, hP, hshape2⟩ :=
      serializerCreate_ok_inv userId req addrs methods st orderId st2 hser
    obtain ⟨o, hf, hc, hshape3⟩ := cancelOrder_ok_inv st2 orderId reason st3 hcan
    have hitems : itemsOfOrder st2.orderItems orderId = ois := by
      rw [hshape2]
      exact itemsOfOrder_append_fresh st.orderItems ois orderId hfi
        (processItems_ok_orderIds orderId st.cartItems st.products ps' ois hP)
    have hprods : st2.products = ps' := by rw [hshape2]
    have hinv : ∀ y, inventoryOf st3.products y =
        (inventoryOf st2.products y).map
          (fun v => v + sumQty (itemsOfOrder st2.orderItems orderId) y) := by
      intro y
      rw [hshape3]
      exact inventoryOf_foldl_bump _ _ y
    rw [hinv x, hitems, hprods]
    exact processItems_ok_roundtrip orderId st.cartItems st.products ps' ois hP x

/-- Witness for C4 at a concrete checkout-then-cancel run. -/
theorem C4_cancel_restores_inventory_witness :
    ∃ st2 st3,
      serializerCreate 5 exReq exAddrs exMethods exStCheckout 100 = .ok st2 ∧
      cancelOrder st2 100 "changed my mind" = .ok st3 ∧
      inventoryOf st3.products 1 = inventoryOf exStCheckout.products 1 ∧
      inventoryOf exStCheckout.products 1 = some 3 := by
  refine ⟨_, _, rfl, rfl, ?_, rfl⟩
  exact C4_cancel_restores_inventory.2.2 5 exReq exAddrs exMethods exStCheckout
    100 _ "changed my mind" _ rfl (by simp [exStCheckout]) (by simp [exStCheckout]) rfl 1

/-! ## Claim C6 -/

/-- Claim C6: at checkout, a cart line whose product has inventory at least
the requested quantity passes the re-validation — when every line does (for
pairwise-distinct products), checkout succeeds and each product's inventory
drops by exactly the ordered quantity, so a line with quantity equal to
inventory leaves it at 0 — while a line with inventory strictly below its
quantity makes the whole checkout fail with an insufficient-inventory error
naming that product, creating nothing. -/
theorem C6_checkout_inventory_boundary :
    (∀ (userId : Nat) (req : CheckoutReq) (addrs : List Address)
        (methods : List ShippingMethod) (st : St) (orderId : Nat) (m : ShippingMethod),
      addrs.any (fun a =>
        a.id == req.shipping_address_id && a.userId == userId && a.type == "shipping") = true →
      addrs.any (fun a =>
        a.id == req.billing_address_id && a.userId == userId && a.type == "billing") = true →
      methods.find? (fun m' => m'.id == req.shipping_method_id && m'.is_active) = some m →
      st.cartItems ≠ [] →
      (st.cartItems.map (fun c => c.productId)).Nodup →
      (∀ ci ∈ st.cartItems, ∃ p, findProduct st.products ci.productId = some p ∧
        ci.quantity ≤ p.inventory) →
      ∃ st2, serializerCreate userId req addrs methods st orderId = .ok st2 ∧
        ∀ ci ∈ st.cartItems, ∀ p, findProduct st.products ci.productId = some p →
          inventoryOf st2.products ci.productId = some (p.inventory - ci.quantity)) ∧
    (∀ (userId : Nat) (req : CheckoutReq) (addrs : List Address)
        (methods : List ShippingMethod) (st : St) (orderId : Nat) (m : ShippingMethod)
        (pre post : List CartItem) (ci : CartItem) (pc : Product),
      addrs.any (fun a =>
        a.id == req.shipping_address_id && a.userId == userId && a.type == "shipping") = true →
      addrs.any (fun a =>
        a.id == req.billing_address_id && a.userId == userId && a.type == "billing") = true →
      methods.find? (fun m' => m'.id == req.shipping_method_id && m'.is_active) = some m →
      st.cartItems = pre ++ ci :: post →
      ((pre ++ [ci]).map (fun c => c.productId)).Nodup →
      (∀ cj ∈ pre, ∃ p, findProduct st.products cj.productId = some p ∧
        cj.quantity ≤ p.inventory) →
      findProduct st.products ci.productId = some pc →
      pc.inventory < ci.quantity →
      serializerCreate userId req addrs methods st orderId
        = .error (.insufficientInventory pc.title)) := by
  constructor
  · intro userId req addrs methods st orderId m hA hB hM hC hnd hok
    obtain ⟨ps', ois, hP⟩ := processItems_succeeds orderId st.cartItems st.products hnd hok
    refine ⟨_, serializerCreate_ok userId req addrs methods st orderId m ps' ois
      hA hB hM hC hP, ?_⟩
    intro ci hci p hp
    have hrt := processItems_ok_roundtrip orderId st.cartItems st.products ps' ois hP
      ci.productId
    have hmap := processItems_ok_items orderId st.cartItems st.products ps' ois hP
    have hsq : sumQty ois ci.productId = ci.quantity := by
      rw [sumQty_of_map_eq ois st.cartItems orderId ci.productId hmap]
      rw [filter_singleton_of_nodup st.cartItems ci hnd hci]
      simp
    have hinvst : inventoryOf st.products ci.productId = some p.inventory := by
      unfold inventoryOf
      rw [hp]
      rfl
    rw [hinvst, hsq] at hrt
    obtain ⟨q, hq⟩ := hok ci hci
    cases hinv2 : inventoryOf ps' ci.productId with
    | none => rw [hinv2] at hrt; exact absurd hrt (by simp)
    | some w =>
      rw [hinv2] at hrt
      have hw : w + ci.quantity = p.inventory := by simpa using hrt
      have hple : ci.quantity ≤ p.inventory := by
        obtain ⟨hq1, hq2⟩ := hq
        rw [hq1] at hp
        injection hp with hp
        rw [hp] at hq2
        exact hq2
      congr 1
      omega
  · intro userId req addrs methods st orderId m pre post ci pc hA hB hM hcart hnd hpre hfc hlt
    have hP : processItems orderId st.products st.cartItems
        = .error (.insufficientInventory pc.title) := by
      rw [hcart]
      exact processItems_first_insufficient orderId pre post ci st.products pc hnd hpre hfc hlt
    refine serializerCreate_insufficient userId req addrs methods st orderId m _
      hA hB hM ?_ hP
    rw [hcart]
    simp

/-- Witness for C6: checking out `exStCheckout` (Alpha quantity 3 equals its
inventory 3) succeeds and leaves Alpha's inventory at 0; the same state with
Alpha's quantity raised to 4 fails naming Alpha. -/
theorem C6_checkout_inventory_boundary_witness :
    (∃ st2, serializerCreate 5 exReq exAddrs exMethods exStCheckout 100 = .ok st2 ∧
      inventoryOf st2.products 1 = some 0) ∧
    serializerCreate 5 exReq exAddrs exMethods
        { exStCheckout with cartItems := [⟨1, 4⟩, ⟨2, 1⟩] } 100
      = .error (.insufficientInventory "Alpha") := by
  constructor
  · obtain ⟨st2, hok, hinv⟩ := C6_checkout_inventory_boundary.1 5 exReq exAddrs exMethods
      exStCheckout 100 ⟨1, 5, true⟩ (by decide) (by decide) rfl (by decide) (by decide)
      (by
        intro ci hci
        fin_cases hci
        · exact ⟨exProduct1, rfl, by decide⟩
        · exact ⟨exProduct2, rfl, by decide⟩)
    exact ⟨st2, hok, hinv ⟨1, 3⟩ (by decide) exProduct1 rfl⟩
  · exact C6_checkout_inventory_boundary.2 5 exReq exAddrs exMethods
      { exStCheckout with cartItems := [⟨1, 4⟩, ⟨2, 1⟩] } 100 ⟨1, 5, true⟩
      [] [⟨2, 1⟩] ⟨1, 4⟩ exProduct1 (by decide) (by decide) rfl rfl (by decide)
      (by intro cj hcj; cases hcj) rfl (by decide)

/-! ## Claim C10 -/

/-- Claim C10: deleting an OrderItem while its order is PENDING or CANCELLED
restores the product's inventory by the item's quantity through the
pre-delete receiver; hence cancelling an order (which already restored
inventory) and then deleting its item restores that product a second time,
for a net increment of twice the item's quantity. -/
theorem C10_delete_after_cancel_double_restore :
    (∀ (st : St) (oid pid : Nat) (it : OrderItem) (o : Order),
      st.orderItems.find? (fun i => i.orderId == oid && i.productId == pid) = some it →
      findOrder st.orders oid = some o →
      (o.status = "PENDING" ∨ o.status = "CANCELLED") →
      inventoryOf (deleteOrderItem st oid pid).products pid =
        (inventoryOf st.products pid).map (fun v => v + it.quantity)) ∧
    (∀ (st : St) (oid pid : Nat) (reason : String) (it : OrderItem) (o : Order) (st2 : St),
      findOrder st.orders oid = some o →
      can_be_cancelled o = true →
      st.orderItems.find? (fun i => i.orderId == oid && i.productId == pid) = some it →
      sumQty (itemsOfOrder st.orderItems oid) pid = it.quantity →
      cancelOrder st oid reason = .ok st2 →
      inventoryOf (deleteOrderItem st2 oid pid).products pid =
        (inventoryOf st.products pid).map (fun v => v + 2 * it.quantity)) := by
  have hpid : ∀ (it : OrderItem) (oid pid : Nat) (l : List OrderItem),
      l.find? (fun i => i.orderId == oid && i.productId == pid) = some it →
      it.productId = pid := by
    intro it oid pid l hl
    have h := List.find?_some hl
    simp at h
    exact h.2
  constructor
  · intro st oid pid it o hit ho hs
    rw [deleteOrderItem_found st oid pid it o hit ho hs]
    have hip := hpid it oid pid st.orderItems hit
    dsimp only
    rw [inventoryOf_bump]
    cases inventoryOf st.products pid with
    | none => rfl
    | some v => simp [hip]
  · intro st oid pid reason it o st2 ho hc hit hsq hcan
    obtain ⟨o', hf', hc', hshape⟩ := cancelOrder_ok_inv st oid reason st2 hcan
    rw [ho] at hf'
    injection hf' with hf'
    subst hf'
    have hitems2 : st2.orderItems = st.orderItems := by rw [hshape]
    have horders2 : findOrder st2.orders oid
        = some { o with
            status := "CANCELLED"
            internal_notes := o.internal_notes ++ "\nCancelled: " ++ reason } := by
      rw [hshape]
      exact findOrder_replace_self st.orders oid o _ ho
        (findOrder_id st.orders oid o ho)
    have hit2 : st2.orderItems.find?
        (fun i => i.orderId == oid && i.productId == pid) = some it := by
      rw [hitems2]
      exact hit
    have hinv2 : inventoryOf st2.products pid =
        (inventoryOf st.products pid).map (fun v => v + it.quantity) := by
      rw [hshape]
      dsimp only
      rw [inventoryOf_foldl_bump, hsq]
    rw [deleteOrderItem_found st2 oid pid it _ hit2 horders2 (Or.inr rfl)]
    have hip := hpid it oid pid st2.orderItems hit2
    dsimp only
    rw [inventoryOf_bump, hinv2]
    cases inventoryOf st.products pid with
    | none => rfl
    | some v =>
      simp [hip]
      omega

/-- Witness for C10: cancelling the PENDING order of `exStOrder` raises
Alpha's inventory from 3 to 6, and deleting the order's item afterwards
raises it again to 9 = 3 + 2 × 3. -/
theorem C10_delete_after_cancel_double_restore_witness :
    ∃ st2, cancelOrder exStOrder 9 "return" = .ok st2 ∧
      inventoryOf (deleteOrderItem st2 9 1).products 1 = some 9 := by
  refine ⟨_, rfl, ?_⟩
  have h := C10_delete_after_cancel_double_restore.2 exStOrder 9 1 "return"
    (exStOrder.orderItems.get ⟨0, by decide⟩) exOrder _ rfl (by decide) rfl (by decide) rfl
  exact h

/-! ## Claim C8 -/

/-- Claim C8 (counterexample): adding a new item with quantity above the
product's inventory (Alpha has 3) does not silently clamp — the serializer
validation fails the request; and merging a source cart whose item is new to
the target keeps the source quantity 9 unclamped, above the inventory 3. -/
theorem C8_clamp_counterexample :
    addItem [exProduct1] [] 1 5 = .error (.insufficientStock 3) ∧
    mergeItems [exProduct1] [⟨1, 9⟩] [] = [⟨1, 9⟩] :=
  ⟨rfl, rfl⟩

/-- Claim C8 (amended): in `addItem` a requested quantity exceeding the
product's inventory fails validation with the available count (no silent
clamp); only when the request itself passes validation and the item already
exists is the summed quantity silently clamped to the inventory; a new item
is created with the requested quantity. In a cart merge, an existing target
item's summed quantity is clamped to the inventory, but a freshly created
target item keeps the source quantity unclamped, whatever the inventory;
after merging every source item the source cart is deleted and the target
cart holds the merged items. -/
theorem C8_clamp_amended :
    (∀ (ps : List Product) (cart : List CartItem) (pid qty : Nat) (p : Product),
      ps.find? (fun q => q.id == pid && q.is_active) = some p →
      1 ≤ p.inventory → 1 ≤ qty → p.inventory < qty →
      addItem ps cart pid qty = .error (.insufficientStock p.inventory)) ∧
    (∀ (ps : List Product) (cart : List CartItem) (pid qty : Nat) (p : Product)
        (ci : CartItem),
      ps.find? (fun q => q.id == pid && q.is_active) = some p →
      findProduct ps pid = some p →
      1 ≤ p.inventory → 1 ≤ qty → qty ≤ p.inventory →
      cart.find? (fun c => c.productId == pid) = some ci →
      p.inventory < ci.quantity + qty →
      addItem ps cart pid qty = .ok (cart.map (fun c =>
        if c.productId == pid then { c with quantity := p.inventory } else c))) ∧
    (∀ (ps : List Product) (cart : List CartItem) (pid qty : Nat) (p : Product),
      ps.find? (fun q => q.id == pid && q.is_active) = some p →
      1 ≤ p.inventory → 1 ≤ qty → qty ≤ p.inventory →
      cart.find? (fun c => c.productId == pid) = none →
      addItem ps cart pid qty = .ok (cart ++ [{ productId := pid, quantity := qty }])) ∧
    (∀ (ps : List Product) (si : CartItem) (rest tgt : List CartItem)
        (ci : CartItem) (p : Product),
      tgt.find? (fun c => c.productId == si.productId) = some ci →
      findProduct ps si.productId = some p →
      p.inventory < ci.quantity + si.quantity →
      mergeItems ps (si :: rest) tgt = mergeItems ps rest (tgt.map (fun c =>
        if c.productId == si.productId then { c with quantity := p.inventory } else c))) ∧
    (∀ (ps : List Product) (si : CartItem) (rest tgt : List CartItem),
      tgt.find? (fun c => c.productId == si.productId) = none →
      mergeItems ps (si :: rest) tgt
        = mergeItems ps rest
            (tgt ++ [{ productId := si.productId, quantity := si.quantity }])) ∧
    (∀ (ps : List Product) (carts : List (Nat × List CartItem))
        (sourceId targetId : Nat) (sc : Nat × List CartItem),
      carts.find? (fun c => c.1 == sourceId) = some sc →
      sourceId ≠ targetId →
      (∀ c ∈ merge_cart ps carts sourceId targetId, c.1 ≠ sourceId) ∧
      (targetId, mergeItems ps sc.2
          (((carts.find? (fun c => c.1 == targetId)).map Prod.snd).getD []))
        ∈ merge_cart ps carts sourceId targetId) := by
  refine ⟨?_, ?_, ?_, ?_, ?_, ?_⟩
  · intro ps cart pid qty p hfind h1 hq hlt
    unfold addItem validateCartItem
    rw [hfind]
    dsimp only
    rw [if_neg (by omega), if_neg (by omega), if_pos (by omega)]
  · intro ps cart pid qty p ci hfind hfp h1 hq hle hci hsum
    unfold addItem validateCartItem
    rw [hfind]
    dsimp only
    rw [if_neg (by omega), if_neg (by omega), if_neg (by omega)]
    dsimp only
    rw [hci]
    dsimp only
    rw [hfp]
    rw [if_pos (by simpa using hsum)]
    rfl
  · intro ps cart pid qty p hfind h1 hq hle hnone
    unfold addItem validateCartItem
    rw [hfind]
    dsimp only
    rw [if_neg (by omega), if_neg (by omega), if_neg (by omega)]
    dsimp only
    rw [hnone]
  · intro ps si rest tgt ci p hci hfp hsum
    unfold mergeItems
    rw [List.foldl_cons]
    dsimp only
    rw [hci]
    dsimp only
    rw [hfp]
    rw [if_pos (by simpa using hsum)]
    rfl
  · intro ps si rest tgt hnone
    unfold mergeItems
    rw [List.foldl_cons]
    dsimp only
    rw [hnone]
  · intro ps carts sourceId targetId sc hsc hne
    constructor
    · intro c hc
      unfold merge_cart at hc
      rw [hsc] at hc
      dsimp only at hc
      have := List.of_mem_filter hc
      simpa using this
    · unfold merge_cart
      rw [hsc]
      dsimp only
      by_cases hany : carts.any (fun c => c.1 == targetId) = true
      · rw [if_pos hany]
        obtain ⟨tc, htcmem, htckey⟩ := List.any_eq_true.mp hany
        have htceq : tc.1 = targetId := by simpa using htckey
        have hmem0 := List.mem_map_of_mem
          (fun c : Nat × List CartItem =>
            if (c.1 == targetId) = true then
              (c.1, mergeItems ps sc.2
                ((Option.map Prod.snd (List.find? (fun c => c.1 == targetId) carts)).getD []))
            else c) htcmem
        dsimp only at hmem0
        rw [if_pos htckey, htceq] at hmem0
        refine List.mem_filter.mpr ⟨hmem0, ?_⟩
        simp
        exact fun hh => hne hh.symm
      · rw [if_neg hany]
        have hfnone : carts.find? (fun c => c.1 == targetId) = none := by
          rw [List.find?_eq_none]
          intro x hx
          intro hxk
          exact hany (List.any_eq_true.mpr ⟨x, hx, hxk⟩)
        rw [hfnone]
        refine List.mem_filter.mpr ⟨List.mem_append_right _ (by simp), ?_⟩
        simp
        exact fun hh => hne hh.symm

/-- Witness for C8 (amended): adding 2 more Alpha to a cart already holding 2
clamps to the inventory 3, and after merging cart 1 into cart 2 no cart with
the source id 1 remains. -/
theorem C8_clamp_amended_witness :
    addItem [exProduct1] [⟨1, 2⟩] 1 2 = .ok [⟨1, 3⟩] ∧
    (∀ c ∈ merge_cart [exProduct1] [(1, [⟨1, 9⟩]), (2, [])] 1 2, c.1 ≠ 1) := by
  constructor
  · exact C8_clamp_amended.2.1 [exProduct1] [⟨1, 2⟩] 1 2 exProduct1 ⟨1, 2⟩
      rfl rfl (by decide) (by decide) (by decide) rfl (by decide)
  · exact (C8_clamp_amended.2.2.2.2.2 [exProduct1] [(1, [⟨1, 9⟩]), (2, [])] 1 2
      (1, [⟨1, 9⟩]) rfl (by decide)).1

/-! ## Claim C1 -/

/-- Claim C1 (counterexample): the earnings rows are created by the view
after the serializer's atomic transaction has committed, so the state
committed between the two steps — durably visible if the process stops
there — holds the order (id 100) and its two order items but no
VendorEarnings row at all, contradicting "all persisted together or none". -/
theorem C1_atomicity_counterexample :
    (checkoutStoppedBeforeEarnings 5 exReq exAddrs exMethods exStCheckout 100).map
        (fun st' => (st'.orders.map (fun o => (o.id, o.status)),
                     st'.orderItems.length, st'.cartItems, st'.earnings))
      = .ok ([(100, "PENDING")], 2, [], []) := rfl

/-- Claim C1 (amended): the serializer transaction is all-or-nothing — on any
precondition or step failure (invalid shipping or billing address, inactive
shipping method, empty cart, or an under-stocked line) checkout returns that
specific error and no state; on success it commits the PENDING order, its
order items, the inventory decrements and the cart clearing together.
The VendorEarnings rows, however, are created by the view in a separate,
non-transactional step after that commit: the state visible between the two
steps has the order but no earnings, and only the full checkout appends the
earnings rows. -/
theorem C1_checkout_atomicity_amended :
    (∀ (userId : Nat) (req : CheckoutReq) (addrs : List Address)
        (methods : List ShippingMethod) (st : St) (orderId : Nat),
      ¬ addrs.any (fun a =>
        a.id == req.shipping_address_id && a.userId == userId && a.type == "shipping") = true →
      checkout userId req addrs methods st orderId = .error .invalidShippingAddress) ∧
    (∀ (userId : Nat) (req : CheckoutReq) (addrs : List Address)
        (methods : List ShippingMethod) (st : St) (orderId : Nat),
      addrs.any (fun a =>
        a.id == req.shipping_address_id && a.userId == userId && a.type == "shipping") = true →
      ¬ addrs.any (fun a =>
        a.id == req.billing_address_id && a.userId == userId && a.type == "billing") = true →
      checkout userId req addrs methods st orderId = .error .invalidBillingAddress) ∧
    (∀ (userId : Nat) (req : CheckoutReq) (addrs : List Address)
        (methods : List ShippingMethod) (st : St) (orderId : Nat),
      addrs.any (fun a =>
        a.id == req.shipping_address_id && a.userId == userId && a.type == "shipping") = true →
      addrs.any (fun a =>
        a.id == req.billing_address_id && a.userId == userId && a.type == "billing") = true →
      methods.find? (fun m' => m'.id == req.shipping_method_id && m'.is_active) = none →
      checkout userId req addrs methods st orderId = .error .invalidShippingMethod) ∧
    (∀ (userId : Nat) (req : CheckoutReq) (addrs : List Address)
        (methods : List ShippingMethod) (st : St) (orderId : Nat) (m : ShippingMethod),
      addrs.any (fun a =>
        a.id == req.shipping_address_id && a.userId == userId && a.type == "shipping") = true →
      addrs.any (fun a =>
        a.id == req.billing_address_id && a.userId == userId && a.type == "billing") = true →
      methods.find? (fun m' => m'.id == req.shipping_method_id && m'.is_active) = some m →
      st.cartItems = [] →
      checkout userId req addrs methods st orderId = .error .emptyCart) ∧
    (∀ (userId : Nat) (req : CheckoutReq) (addrs : List Address)
        (methods : List ShippingMethod) (st : St) (orderId : Nat) (m : ShippingMethod)
        (e : CheckoutErr),
      addrs.any (fun a =>
        a.id == req.shipping_address_id && a.userId == userId && a.type == "shipping") = true →
      addrs.any (fun a =>
        a.id == req.billing_address_id && a.userId == userId && a.type == "billing") = true →
      methods.find? (fun m' => m'.id == req.shipping_method_id && m'.is_active) = some m →
      st.cartItems ≠ [] →
      processItems orderId st.products st.cartItems = .error e →
      checkout userId req addrs methods st orderId = .error e) ∧
    (∀ (userId : Nat) (req : CheckoutReq) (addrs : List Address)
        (methods : List ShippingMethod) (st : St) (orderId : Nat) (m : ShippingMethod)
        (ps' : List Product) (ois : List OrderItem),
      addrs.any (fun a =>
        a.id == req.shipping_address_id && a.userId == userId && a.type == "shipping") = true →
      addrs.any (fun a =>
        a.id == req.billing_address_id && a.userId == userId && a.type == "billing") = true →
      methods.find? (fun m' => m'.id == req.shipping_method_id && m'.is_active) = some m →
      st.cartItems ≠ [] →
      processItems orderId st.products st.cartItems = .ok (ps', ois) →
      (∀ i ∈ st.orderItems, i.orderId ≠ orderId) →
      checkoutStoppedBeforeEarnings userId req addrs methods st orderId = .ok
        { st with
          products := ps'
          orders := st.orders ++
            [{ id := orderId
               status := "PENDING"
               subtotal := cart_subtotal st.products st.cartItems
               tax_amount := cart_subtotal st.products st.cartItems * (8 / 100)
               shipping_amount := m.price
               discount_amount := 0
               total_amount := cart_subtotal st.products st.cartItems
                 + cart_subtotal st.products st.cartItems * (8 / 100) + m.price
               paid_at := none
               shipped_at := none
               delivered_at := none
               tracking_number := ""
               customer_notes := req.customer_notes
               internal_notes := "" }]
          orderItems := st.orderItems ++ ois
          cartItems := [] } ∧
      checkout userId req addrs methods st orderId = .ok
        { st with
          products := ps'
          orders := st.orders ++
            [{ id := orderId
               status := "PENDING"
               subtotal := cart_subtotal st.products st.cartItems
               tax_amount := cart_subtotal st.products st.cartItems * (8 / 100)
               shipping_amount := m.price
               discount_amount := 0
               total_amount := cart_subtotal st.products st.cartItems
                 + cart_subtotal st.products st.cartItems * (8 / 100) + m.price
               paid_at := none
               shipped_at := none
               delivered_at := none
               tracking_number := ""
               customer_notes := req.customer_notes
               internal_notes := "" }]
          orderItems := st.orderItems ++ ois
          cartItems := []
          earnings := st.earnings ++ createVendorEarnings orderId ois }) := by
  refine ⟨?_, ?_, ?_, ?_, ?_, ?_⟩
  · intro userId req addrs methods st orderId hA
    exact checkout_eq_error userId req addrs methods st orderId _
      (serializerCreate_invalid_shipping userId req addrs methods st orderId hA)
  · intro userId req addrs methods st orderId hA hB
    exact checkout_eq_error userId req addrs methods st orderId _
      (serializerCreate_invalid_billing userId req addrs methods st orderId hA hB)
  · intro userId req addrs methods st orderId hA hB hM
    exact checkout_eq_error userId req addrs methods st orderId _
      (serializerCreate_invalid_method userId req addrs methods st orderId hA hB hM)
  · intro userId req addrs methods st orderId m hA hB hM hC
    exact checkout_eq_error userId req addrs methods st orderId _
      (serializerCreate_empty_cart userId req addrs methods st orderId m hA hB hM hC)
  · intro userId req addrs methods st orderId m e hA hB hM hC hP
    exact checkout_eq_error userId req addrs methods st orderId _
      (serializerCreate_insufficient userId req addrs methods st orderId m e hA hB hM hC hP)
  · intro userId req addrs methods st orderId m ps' ois hA hB hM hC hP hfresh
    have hser := serializerCreate_ok userId req addrs methods st orderId m ps' ois
      hA hB hM hC hP
    refine ⟨hser, ?_⟩
    have hc := checkout_eq_ok userId req addrs methods st orderId _ hser
    have hio : itemsOfOrder (st.orderItems ++ ois) orderId = ois :=
      itemsOfOrder_append_fresh st.orderItems ois orderId hfresh
        (processItems_ok_orderIds orderId st.cartItems st.products ps' ois hP)
    rw [hc]
    dsimp only
    rw [hio]

/-- Witness for C1 (amended): the concrete checkout of `exStCheckout` —
stopping before the earnings step yields the order with no earnings rows;
the full checkout yields the same state plus the earnings rows. -/
theorem C1_checkout_atomicity_amended_witness :
    ∃ ps' ois,
      processItems 100 exStCheckout.products exStCheckout.cartItems = .ok (ps', ois) ∧
      (checkoutStoppedBeforeEarnings 5 exReq exAddrs exMethods exStCheckout 100).map
          (fun s => s.earnings) = .ok [] ∧
      (checkout 5 exReq exAddrs exMethods exStCheckout 100).map
          (fun s => s.earnings) = .ok (createVendorEarnings 100 ois) := by
  refine ⟨_, _, rfl, ?_, ?_⟩
  · have h := (C1_checkout_atomicity_amended.2.2.2.2.2 5 exReq exAddrs exMethods
      exStCheckout 100 ⟨1, 5, true⟩ _ _ (by decide) (by decide) rfl (by decide) rfl
      (by simp [exStCheckout])).1
    rw [h]
    rfl
  · have h := (C1_checkout_atomicity_amended.2.2.2.2.2 5 exReq exAddrs exMethods
      exStCheckout 100 ⟨1, 5, true⟩ _ _ (by decide) (by decide) rfl (by decide) rfl
      (by simp [exStCheckout])).2
    rw [h]
    rfl

end Beakling

